import Mathlib

/-!
# instancetype_testdata_gen

A shallow embedding of `hack/code/instancetype_testdata_gen/main.go`: the
fetch loop of `main` with its name filter, and `writeSkuData`, which renders
the retained SKU records as Go source text.

Conventions of the embedding.

* A Go `string` is a Lean `String`. The strings the program handles come from
  JSON decoding, which yields valid UTF-8, so a sequence of Unicode scalar
  values is an exact image; on such strings Go's byte-wise `<` is the
  lexicographic order on code points, which is the order of `String`.
* A Go pointer field (`*string`, `*int64`, `*ResourceSKUCapacity`, ...) is an
  `Option`; dereferencing `none` is a run-time panic, modelled by
  `Except.error`. A slice of string pointers is a list of `Option String`; a
  slice of struct pointers is the list of the structs it points to.
* `bytes.Buffer` writes are string concatenation, in program order.
* The process is a function from the `World` it runs in to the trace of its
  observable effects and the way it ends.
-/

namespace SkuGen

/-! ## Records of the `armcompute` package read by the program -/

/-- The `armcompute.ResourceSKUCapacity` fields the program reads. -/
structure ResourceSKUCapacity where
  Minimum : Option Int
  Maximum : Option Int
  Default : Option Int
deriving DecidableEq

/-- The `armcompute.ResourceSKUCosts` record; `Quantity` is a `*int64`. -/
structure ResourceSKUCosts where
  MeterID : Option String
  Quantity : Option Int
  ExtendedUnit : Option String
deriving DecidableEq

/-- The `armcompute.ResourceSKURestrictionInfo` record. -/
structure ResourceSKURestrictionInfo where
  Locations : List (Option String)
  Zones : List (Option String)
deriving DecidableEq

/-- The `armcompute.ResourceSKURestrictions` record; the Go field `Type` is
named `RestrictionType` here. -/
structure ResourceSKURestrictions where
  RestrictionType : Option String
  Values : List (Option String)
  RestrictionInfo : Option ResourceSKURestrictionInfo
  ReasonCode : Option String
deriving DecidableEq

/-- The `armcompute.ResourceSKUCapabilities` record. -/
structure ResourceSKUCapabilities where
  Name : Option String
  Value : Option String
deriving DecidableEq

/-- The `armcompute.ResourceSKULocationInfo` fields the program reads. -/
structure ResourceSKULocationInfo where
  Location : Option String
  Zones : List (Option String)
deriving DecidableEq

/-- The `armcompute.ResourceSKU` record. -/
structure ResourceSKU where
  Name : Option String
  Tier : Option String
  Kind : Option String
  Size : Option String
  Family : Option String
  ResourceType : Option String
  APIVersions : List (Option String)
  Capacity : Option ResourceSKUCapacity
  Costs : List ResourceSKUCosts
  Restrictions : List ResourceSKURestrictions
  Capabilities : List ResourceSKUCapabilities
  Locations : List (Option String)
  LocationInfo : List ResourceSKULocationInfo
deriving DecidableEq

/-! ## Library functions the program calls -/

/-- The function `lo.FromPtrOr`: the pointed-to value, or the fallback for nil. -/
def FromPtrOr {α : Type} (x : Option α) (fallback : α) : α :=
  match x with
  | some v => v
  | none => fallback

/-- The function `lo.FromPtr` at type `string`: the zero value `""` for nil. -/
def FromPtr (x : Option String) : String :=
  match x with
  | some v => v
  | none => ""

/-- The digit table `lowerhex` of `strconv`. -/
def lowerhex (i : Nat) : Char :=
  "0123456789abcdef".data.getD i '0'

/-- The function `strconv.IsPrint`: the Latin-1 fast path is the one of the Go
source; above `0xFF` Go searches its Unicode tables, which the embedding takes
as the parameter `wide`. -/
def IsPrint (wide : Char → Bool) (r : Char) : Bool :=
  if r.toNat ≤ 0xFF then
    if 0x20 ≤ r.toNat ∧ r.toNat ≤ 0x7E then true
    else if 0xA1 ≤ r.toNat ∧ r.toNat ≤ 0xFF then r.toNat != 0xAD
    else false
  else wide r

/-- The function `appendEscapedRune` of `strconv` (neither ASCII-only nor
graphic-only), for a valid rune `r` and the quote character `quote`. -/
def appendEscapedRune (wide : Char → Bool) (quote : Char) (r : Char) : List Char :=
  if r = quote ∨ r = '\\' then ['\\', r]
  else if IsPrint wide r then [r]
  else if r.toNat = 7 then ['\\', 'a']
  else if r.toNat = 8 then ['\\', 'b']
  else if r.toNat = 12 then ['\\', 'f']
  else if r.toNat = 10 then ['\\', 'n']
  else if r.toNat = 13 then ['\\', 'r']
  else if r.toNat = 9 then ['\\', 't']
  else if r.toNat = 11 then ['\\', 'v']
  else if r.toNat < 0x20 ∨ r.toNat = 0x7f then
    ['\\', 'x', lowerhex (r.toNat / 16 % 16), lowerhex (r.toNat % 16)]
  else if r.toNat < 0x10000 then
    ['\\', 'u', lowerhex (r.toNat / 4096 % 16), lowerhex (r.toNat / 256 % 16),
      lowerhex (r.toNat / 16 % 16), lowerhex (r.toNat % 16)]
  else
    ['\\', 'U', lowerhex (r.toNat / 268435456 % 16), lowerhex (r.toNat / 16777216 % 16),
      lowerhex (r.toNat / 1048576 % 16), lowerhex (r.toNat / 65536 % 16),
      lowerhex (r.toNat / 4096 % 16), lowerhex (r.toNat / 256 % 16),
      lowerhex (r.toNat / 16 % 16), lowerhex (r.toNat % 16)]

/-- The escaped body of a quoted string: each rune through `appendEscapedRune`. -/
def escapeRunes (wide : Char → Bool) (quote : Char) : List Char → List Char
  | [] => []
  | r :: rs => appendEscapedRune wide quote r ++ escapeRunes wide quote rs

/-- The verb `%q` on a string, `strconv.Quote`: a double-quoted Go string literal. -/
def Quote (wide : Char → Bool) (s : String) : String :=
  String.mk ('\"' :: (escapeRunes wide '\"' s.data ++ ['\"']))

/-- The decimal digits of a natural number, most significant first; `fuel`
bounds the number of digits. -/
def fmtDigits : Nat → Nat → List Char
  | 0, _ => []
  | fuel + 1, u =>
    if u < 10 then [Char.ofNat (48 + u)]
    else fmtDigits fuel (u / 10) ++ [Char.ofNat (48 + u % 10)]

/-- The decimal rendering of a natural number (`%d`, and `Println` of a length). -/
def fmtNat (u : Nat) : String :=
  String.mk (fmtDigits (u + 1) u)

/-- The verb `%d` on an `int64`. -/
def fmtD (v : Int) : String :=
  if v < 0 then "-" ++ fmtNat v.natAbs else fmtNat v.toNat

/-- The verb `%q` on an `int64`, `fmtQc`: a single-quoted character literal of the
rune with that code, and of U+FFFD when the value is no valid rune. -/
def fmtQc (wide : Char → Bool) (v : Int) : String :=
  let r : Char :=
    if v < 0 ∨ 0x10FFFF < v ∨ (0xD800 ≤ v ∧ v ≤ 0xDFFF) then '\uFFFD'
    else Char.ofNat v.toNat
  String.mk ('\'' :: (appendEscapedRune wide '\'' r ++ ['\'']))

/-- The verb `%f` on a string: no such verb for the type, so `fmt` writes the
bad-verb form with the operand printed plainly. -/
def fmtBadVerbF (s : String) : String :=
  "%!f(string=" ++ s ++ ")"

/-! ## `writeSkuData`: the rendered text -/

/-- The panic of a nil pointer dereference. -/
def nilDereference : String :=
  "runtime error: invalid memory address or nil pointer dereference"

/-- The Go expression `*p`: the value, or the nil-dereference panic. -/
def deref {α : Type} (p : Option α) : Except String α :=
  match p with
  | some v => .ok v
  | none => .error nilDereference

/-- The text a `for ... range xs` loop appends, when each iteration appends `f x`. -/
def joinMap {α : Type} (f : α → String) : List α → String
  | [] => ""
  | x :: xs => f x ++ joinMap f xs

/-- The text a `for ... range xs` loop appends when an iteration may panic: the
first panic ends the loop (and the program). -/
def renderEach {α : Type} (f : α → Except String String) : List α → Except String String
  | [] => .ok ""
  | x :: xs =>
    match f x with
    | .error e => .error e
    | .ok a =>
      match renderEach f xs with
      | .error e => .error e
      | .ok b => .ok (a ++ b)

/-- Lines 102-107: the six string attributes, nil rendered as `""`. -/
def renderScalars (wide : Char → Bool) (sku : ResourceSKU) : String :=
  "\t\tName:         lo.ToPtr(" ++ Quote wide (FromPtrOr sku.Name "") ++ "),\n" ++
  "\t\tTier:         lo.ToPtr(" ++ Quote wide (FromPtrOr sku.Tier "") ++ "),\n" ++
  "\t\tKind:         lo.ToPtr(" ++ Quote wide (FromPtrOr sku.Kind "") ++ "),\n" ++
  "\t\tSize:         lo.ToPtr(" ++ Quote wide (FromPtrOr sku.Size "") ++ "),\n" ++
  "\t\tFamily:       lo.ToPtr(" ++ Quote wide (FromPtrOr sku.Family "") ++ "),\n" ++
  "\t\tResourceType: lo.ToPtr(" ++ Quote wide (FromPtrOr sku.ResourceType "") ++ "),\n"

/-- Line 110: one API version. -/
def renderAPIVersion (wide : Char → Bool) (apiVersion : Option String) : String :=
  "\t\t\tlo.ToPtr(" ++ Quote wide (FromPtrOr apiVersion "") ++ "),\n"

/-- Lines 108-112: the `APIVersions` field. -/
def renderAPIVersions (wide : Char → Bool) (apiVersions : List (Option String)) : String :=
  "\t\tAPIVersions: &[]string\x7b\n" ++ joinMap (renderAPIVersion wide) apiVersions ++
  "\t\t\x7d,\n"

/-- Lines 113-119: the `Capacity` field, written only for a non-nil capacity; its
closing line is written by `Fprintf` and carries no newline. -/
def renderCapacity (capacity : Option ResourceSKUCapacity) : String :=
  match capacity with
  | none => ""
  | some c =>
    "\t\tCapacity: compute.ResourceSkuCapacity\x7b\n" ++
    "\t\t\tMinimum: lo.ToPtr(" ++ fmtD (FromPtrOr c.Minimum 0) ++ "),\n" ++
    "\t\t\tMaximum: lo.ToPtr(" ++ fmtD (FromPtrOr c.Maximum 0) ++ "),\n" ++
    "\t\t\tDefault: lo.ToPtr(" ++ fmtD (FromPtrOr c.Default 0) ++ "),\n" ++
    "\t\t\x7d,"

/-- Line 122: one cost entry. The format pairs `%f` with the meter id (a string)
and `%q` with the quantity (an integer). -/
def renderCost (wide : Char → Bool) (cost : ResourceSKUCosts) : String :=
  "\t\t\t\x7bMeterID: lo.ToPtr(" ++ fmtBadVerbF (FromPtrOr cost.MeterID "") ++
  "), Quantity: lo.ToPtr(" ++ fmtQc wide (FromPtrOr cost.Quantity 0) ++
  "), ExtendedUnit: lo.ToPtr(" ++ Quote wide (FromPtrOr cost.ExtendedUnit "") ++ ")\x7d,"

/-- Lines 120-124: the `Costs` field. -/
def renderCosts (wide : Char → Bool) (costs : List ResourceSKUCosts) : String :=
  "\t\tCosts: &[]compute.ResourceSkuCosts\x7b" ++ joinMap (renderCost wide) costs ++
  "\t\t\x7d,\n"

/-- Line 130: one affected value of a restriction; the field name is written once
per value, inside the loop. -/
def renderValue (wide : Char → Bool) (value : Option String) : String :=
  "\t\t\t\tValues: &[]string\x7b" ++ Quote wide (FromPtrOr value "") ++ "\x7d,"

/-- Lines 136 and 141: one location or zone of a restriction info. -/
def renderInfoString (wide : Char → Bool) (s : Option String) : String :=
  "\t\t\t\t\t\t" ++ Quote wide (FromPtr s) ++ ",\n"

/-- Lines 127-146: one restriction entry. Reading `restriction.RestrictionInfo.Locations`
panics when the restriction info is nil. -/
def renderRestriction (wide : Char → Bool) (restriction : ResourceSKURestrictions) :
    Except String String :=
  match deref restriction.RestrictionInfo with
  | .error e => .error e
  | .ok info =>
    .ok ("\t\t\t\x7b\n" ++
      "\t\t\t\tType: compute.ResourceSkuRestrictionsType(" ++
        Quote wide (FromPtrOr restriction.RestrictionType "") ++ "),\n" ++
      joinMap (renderValue wide) restriction.Values ++
      "\n" ++
      "\t\t\t\tRestrictionInfo: &compute.ResourceSkuRestrictionInfo\x7b\n" ++
      "\t\t\t\t\tLocations: &[]string\x7b\n" ++
      joinMap (renderInfoString wide) info.Locations ++
      "\t\t\t\t\t\x7d,\n" ++
      "\t\t\t\t\tZones: &[]string\x7b\n" ++
      joinMap (renderInfoString wide) info.Zones ++
      "\t\t\t\t\t\x7d,\n" ++
      "\t\t\t\t\x7d,\n" ++
      "\t\t\t\tReasonCode: " ++ Quote wide (FromPtrOr restriction.ReasonCode "") ++ ",\n" ++
      "\t\t\t\x7d,\n")

/-- Lines 125-148: the `Restrictions` field. -/
def renderRestrictions (wide : Char → Bool) (restrictions : List ResourceSKURestrictions) :
    Except String String :=
  match renderEach (renderRestriction wide) restrictions with
  | .error e => .error e
  | .ok body =>
    .ok ("\t\tRestrictions: &[]compute.ResourceSkuRestrictions\x7b\n" ++ body ++ "\t\t\x7d,\n")

/-- Line 151: one capability; `*capability.Name` and `*capability.Value` panic on nil. -/
def renderCapability (wide : Char → Bool) (capability : ResourceSKUCapabilities) :
    Except String String :=
  match deref capability.Name with
  | .error e => .error e
  | .ok name =>
    match deref capability.Value with
    | .error e => .error e
    | .ok value =>
      .ok ("\t\t\t\x7bName: lo.ToPtr(" ++ Quote wide name ++ "), Value: lo.ToPtr(" ++
        Quote wide value ++ ")\x7d,\n")

/-- Lines 149-153: the `Capabilities` field. -/
def renderCapabilities (wide : Char → Bool) (capabilities : List ResourceSKUCapabilities) :
    Except String String :=
  match renderEach (renderCapability wide) capabilities with
  | .error e => .error e
  | .ok body =>
    .ok ("\t\tCapabilities: &[]compute.ResourceSkuCapabilities\x7b\n" ++ body ++ "\t\t\x7d,\n")

/-- Line 154: the `Locations` field, written from the `location` argument. -/
def renderLocations (wide : Char → Bool) (location : String) : String :=
  "\t\tLocations: &[]string\x7b" ++ Quote wide location ++ "\x7d,\n"

/-- The comparison `<` of Go strings on lists of runes: lexicographic, a proper
initial segment being smaller. -/
def runesLess : List Char → List Char → Bool
  | _, [] => false
  | [], _ :: _ => true
  | a :: as, b :: bs =>
    if a.toNat < b.toNat then true
    else if b.toNat < a.toNat then false
    else runesLess as bs

/-- The comparison `*locationInfo.Zones[i] < *locationInfo.Zones[j]` of line 160. -/
def stringLess (a b : String) : Bool :=
  runesLess a.data b.data

/-- One step of the insertion sort behind `sort.Slice`: `z` moves left past the
elements it is less than. -/
def insertZone (z : String) : List String → List String
  | [] => [z]
  | y :: ys => if stringLess z y then z :: y :: ys else y :: insertZone z ys

/-- The strings in the order `sort.Slice` leaves them under the comparison `<`
of line 160. -/
def sortStrings (zs : List String) : List String :=
  zs.foldl (fun sorted z => insertZone z sorted) []

/-- Lines 159-161: `sort.Slice` on the zone pointers. With fewer than two zones no
comparison is made; otherwise every zone is compared at least once, and the
comparison dereferences both operands. -/
def sortZones (zones : List (Option String)) : Except String (List (Option String)) :=
  if zones.length < 2 then .ok zones
  else if zones.all Option.isSome then .ok ((sortStrings (zones.map FromPtr)).map some)
  else .error nilDereference

/-- Line 163: one zone of a location-info entry. -/
def renderZone (wide : Char → Bool) (zone : Option String) : String :=
  "\t\t\t\t" ++ Quote wide (FromPtr zone) ++ ",\n"

/-- Lines 157-165: one location-info entry; its location is the `location`
argument, its zones are sorted first. -/
def renderLocationInfo (wide : Char → Bool) (location : String)
    (locationInfo : ResourceSKULocationInfo) : Except String String :=
  match sortZones locationInfo.Zones with
  | .error e => .error e
  | .ok zones =>
    .ok ("\t\t\t\x7bLocation: lo.ToPtr(" ++ Quote wide location ++ ")," ++
      "\t\t\tZones: &[]string\x7b\n" ++
      joinMap (renderZone wide) zones ++
      "\t\t\t\x7d,\n")

/-- Lines 155-167: the `LocationInfo` field. -/
def renderLocationInfos (wide : Char → Bool) (location : String)
    (infos : List ResourceSKULocationInfo) : Except String String :=
  match renderEach (renderLocationInfo wide location) infos with
  | .error e => .error e
  | .ok body =>
    .ok ("\t\tLocationInfo: &[]compute.ResourceSkuLocationInfo\x7b" ++ body ++ "\t\t\t\x7d,\n")

/-- Lines 101-170: the text one iteration of the loop over `ResourceSkus` appends. -/
def renderSku (wide : Char → Bool) (location : String) (sku : ResourceSKU) :
    Except String String :=
  match renderRestrictions wide sku.Restrictions with
  | .error e => .error e
  | .ok restrictions =>
    match renderCapabilities wide sku.Capabilities with
    | .error e => .error e
    | .ok capabilities =>
      match renderLocationInfos wide location sku.LocationInfo with
      | .error e => .error e
      | .ok locationInfo =>
        .ok ("\t\x7b\n" ++
          renderScalars wide sku ++
          renderAPIVersions wide sku.APIVersions ++
          renderCapacity sku.Capacity ++
          renderCosts wide sku.Costs ++
          restrictions ++
          capabilities ++
          renderLocations wide location ++
          locationInfo ++
          "\t\x7d,\n" ++
          "\x7d,\n")

/-- Lines 100-171: the text of the whole loop, the list body of the assignment. -/
def renderSkus (wide : Char → Bool) (location : String) (skus : List ResourceSKU) :
    Except String String :=
  renderEach (renderSku wide location) skus

/-- Lines 86-98: what `writeSkuData` writes before the assignment; `license` is the
content of the boilerplate file and `now` the formatted time. -/
def renderPreamble (license now : String) : String :=
  "//go:build !ignore_autogenerated\n" ++
  license ++ "\n" ++
  "package fake\n" ++
  "import (\n" ++
  "\t\"github.com/samber/lo\"\n" ++
  "\t\t// nolint SA1019 - deprecated package\n" ++
  "\t\t\"github.com/Azure/azure-sdk-for-go/services/compute/mgmt/2022-08-01/compute\"\n" ++
  ")\n" ++
  "// generated at " ++ now ++ "\n\n\n" ++
  "func init() \x7b\n" ++
  "// ResourceSkus is a list of selected VM SKUs for a given region\n"

/-- Line 99: the assignment under the region key, up to the opening of its list. -/
def renderAssignment (wide : Char → Bool) (location : String) : String :=
  "ResourceSkus[" ++ Quote wide location ++ "] = []compute.ResourceSku\x7b\n"

/-- Lines 86-174: the content of the buffer `src` when `writeSkuData` reaches
`os.WriteFile`, or the panic raised while rendering. -/
def renderFile (wide : Char → Bool) (license now location : String)
    (skus : List ResourceSKU) : Except String String :=
  match renderSkus wide location skus with
  | .error e => .error e
  | .ok body =>
    .ok (renderPreamble license now ++ renderAssignment wide location ++ body ++ "\x7d\n" ++ "\x7d\n")

/-! ## `main`: arguments, fetch loop and effects -/

/-- The pieces of `s` between the occurrences of the separator `sep`, on lists of
characters: one more piece than there are separators. -/
def splitRunes (sep : Char) : List Char → List (List Char)
  | [] => [[]]
  | c :: cs =>
    if c = sep then [] :: splitRunes sep cs
    else
      match splitRunes sep cs with
      | [] => [[c]]
      | piece :: pieces => (c :: piece) :: pieces

/-- The call `strings.Split(s, sep)` for a one-character separator. -/
def Split (s : String) (sep : Char) : List String :=
  (splitRunes sep s.data).map String.mk

/-- Lines 39-42: the map `targetSkus`, held as the list of its keys; the program
only tests membership. -/
def targetSet (skus : List String) : List String :=
  skus.foldl (fun targetSkus sku => sku :: targetSkus) []

/-- Lines 72-77: the loop over one page. `*sku.Name` panics on a nil name; a
record whose name is a key of `targetSkus` is appended to `skuData`. -/
def filterPage (targetSkus : List String) :
    List ResourceSKU → List ResourceSKU → Except String (List ResourceSKU)
  | skuData, [] => .ok skuData
  | skuData, sku :: rest =>
    match deref sku.Name with
    | .error e => .error e
    | .ok name =>
      if name ∈ targetSkus then filterPage targetSkus (skuData ++ [sku]) rest
      else filterPage targetSkus skuData rest

/-- What the process does that can be observed from outside. -/
inductive Event where
  | stdout (text : String)
  | newCredential
  | newClient
  | nextPage
  | readFile (path : String)
  | writeFile (path : String) (content : String)
deriving DecidableEq

/-- How a run ends: `main` returns, `os.Exit` is called, or a panic unwinds; a
run is `unfinished` when the fetch loop still asks for a page after the last
answer the world gives. -/
inductive Outcome where
  | returned
  | exit (code : Nat)
  | panic (message : String)
  | unfinished
deriving DecidableEq

/-- The response `armcompute.ResourceSKUsClientListResponse`: the records of
one page and the link to the next page, if there is one. -/
structure Page where
  Value : List ResourceSKU
  NextLink : Option String
deriving DecidableEq

/-- The result of one `pager.NextPage` call: a page, or an error. -/
abbrev PageResult := Except String Page

/-- The slice `page.Value`: the zero response of a failed call holds no record. -/
def pageValue (page : PageResult) : List ResourceSKU :=
  match page with
  | .ok response => response.Value
  | .error _ => []

/-- Lines 68-71: the call and, on failure, the report of it. -/
def pageEvents (page : PageResult) : List Event :=
  match page with
  | .ok _ => [Event.nextPage]
  | .error e => [Event.nextPage, Event.stdout ("failed to get next page: " ++ e)]

/-- The pager's `More` of a page it has received: the next link is present and
not empty. -/
def hasNext (page : Page) : Bool :=
  match page.NextLink with
  | some link => link != ""
  | none => false

/-- The value of `pager.More()` after a `NextPage` call made inside the loop, as
the SDK's `runtime.Pager` gives it. The pager keeps the last page it received:
a failed call leaves it as it was, that is in a state in which `More()` held,
so the same page is asked for again; after a successful call it is the `More`
of the page received. -/
def pagerMore (result : PageResult) : Bool :=
  match result with
  | .ok page => hasNext page
  | .error _ => true

/-- How the fetch loop stands when the answers of the world are used up: it has
ended with the list `skuData`, it has panicked, or it still asks for a page. -/
inductive Fetched where
  | done (skuData : List ResourceSKU)
  | panic (message : String)
  | pending (skuData : List ResourceSKU)
deriving DecidableEq

/-- Lines 67-78: the fetch loop `for pager.More()`. Each iteration takes the
result of its `NextPage` call from the list; before the first call `More()`
holds, and the loop ends when `More()` fails after a call. It yields the
effects and how the loop stands. -/
def fetchLoop (targetSkus : List String) :
    List PageResult → List ResourceSKU → List Event × Fetched
  | [], skuData => ([], .pending skuData)
  | page :: rest, skuData =>
    match filterPage targetSkus skuData (pageValue page) with
    | .error e => (pageEvents page, .panic e)
    | .ok collected =>
      if pagerMore page then
        (pageEvents page ++ (fetchLoop targetSkus rest collected).1,
          (fetchLoop targetSkus rest collected).2)
      else (pageEvents page, .done collected)

/-- Everything outside the process that a run depends on. -/
structure World where
  /-- The value `os.Getenv("SUBSCRIPTION_ID")`, `""` when the variable is unset. -/
  subscriptionID : String
  /-- The slice `os.Args`. -/
  args : List String
  /-- The error of `azidentity.NewDefaultAzureCredential`, if any. -/
  credentialError : Option String
  /-- The error of `armcompute.NewResourceSKUsClient`, if any. -/
  clientError : Option String
  /-- The results of the successive `pager.NextPage` calls, as far as the world
  answers them. -/
  pages : List PageResult
  /-- The result of reading `hack/boilerplate.go.txt`. -/
  boilerplate : Except String String
  /-- The value `time.Now().UTC().Format(time.RFC3339)`. -/
  now : String
  /-- The error of `os.WriteFile`, if any. -/
  writeError : Option String
  /-- The printable-rune tables of `strconv` above Latin-1. -/
  wide : Char → Bool

/-- Lines 84-180: `writeSkuData`. -/
def writeSkuData (w : World) (ResourceSkus : List ResourceSKU) (location path : String) :
    List Event × Outcome :=
  match w.boilerplate with
  | .error e => ([Event.readFile "hack/boilerplate.go.txt"], Outcome.panic e)
  | .ok license =>
    match renderFile w.wide license w.now location ResourceSkus with
    | .error e => ([Event.readFile "hack/boilerplate.go.txt"], Outcome.panic e)
    | .ok src =>
      match w.writeError with
      | none =>
        ([Event.readFile "hack/boilerplate.go.txt",
          Event.stdout ("writing file to " ++ path ++ "\n"),
          Event.writeFile path src], Outcome.returned)
      | some e =>
        ([Event.readFile "hack/boilerplate.go.txt",
          Event.stdout ("writing file to " ++ path ++ "\n"),
          Event.writeFile path src,
          Event.stdout ("failed to write file: " ++ e)], Outcome.panic e)

/-- The panic of reading `os.Args[2]`, `os.Args[3]`, `os.Args[4]` in a slice of
`n < 5` elements: the first index out of range is reported. -/
def indexOutOfRange (n : Nat) : String :=
  "runtime error: index out of range [" ++ fmtNat (if n ≤ 2 then 2 else n) ++
    "] with length " ++ fmtNat n

/-- Lines 34-82: `main`. The test of `err` on lines 54-56 follows a successful
credential call, so its branch is never taken and it has no effect. -/
def main (w : World) : List Event × Outcome :=
  match w.args with
  | _ :: _ :: path :: region :: selectedSkus :: _ =>
    if w.subscriptionID = "" then
      ([Event.stdout "starting generation of sku data...\n",
        Event.stdout "SUBSCRIPTION_ID env var is required\n"], Outcome.exit 1)
    else
      match w.credentialError with
      | some e =>
        ([Event.stdout "starting generation of sku data...\n", Event.newCredential,
          Event.stdout ("failed to create credential: " ++ e)], Outcome.exit 1)
      | none =>
        match w.clientError with
        | some e =>
          ([Event.stdout "starting generation of sku data...\n", Event.newCredential,
            Event.newClient], Outcome.panic e)
        | none =>
          match fetchLoop (targetSet (Split selectedSkus ',')) w.pages [] with
          | (fetched, .panic e) =>
            ([Event.stdout "starting generation of sku data...\n", Event.newCredential,
              Event.newClient] ++ fetched, Outcome.panic e)
          | (fetched, .pending _) =>
            ([Event.stdout "starting generation of sku data...\n", Event.newCredential,
              Event.newClient] ++ fetched, Outcome.unfinished)
          | (fetched, .done skuData) =>
            match writeSkuData w skuData region path with
            | (written, Outcome.returned) =>
              ([Event.stdout "starting generation of sku data...\n", Event.newCredential,
                Event.newClient] ++ fetched ++
                [Event.stdout ("Successfully Fetched all the SKUs " ++
                  fmtNat skuData.length ++ "\n")] ++ written ++
                [Event.stdout "Successfully Generated all the SKUs\n"], Outcome.returned)
            | (written, outcome) =>
              ([Event.stdout "starting generation of sku data...\n", Event.newCredential,
                Event.newClient] ++ fetched ++
                [Event.stdout ("Successfully Fetched all the SKUs " ++
                  fmtNat skuData.length ++ "\n")] ++ written, outcome)
  | args =>
    ([Event.stdout "starting generation of sku data...\n"],
      Outcome.panic (indexOutOfRange args.length))

/-! ## Reference definitions taken from the specification -/

/-- Whether the record carries a name that is a member of `T`. -/
def nameIn (T : List String) (r : ResourceSKU) : Bool :=
  match r.Name with
  | some name => decide (name ∈ T)
  | none => false

/-- The filter of the specification: the subsequence of `R` whose name is a
member of `T`. -/
def nameFilter (T : List String) (R : List ResourceSKU) : List ResourceSKU :=
  R.filter (nameIn T)

/-- The records of the successful pages, concatenated in page order. -/
def successRecords : List PageResult → List ResourceSKU
  | [] => []
  | .ok page :: rest => page.Value ++ successRecords rest
  | .error _ :: rest => successRecords rest

/-- A listing whose calls all succeed: each page is received with a link to the
next one, the last page without; a listing of no page is one empty page. -/
def served : List (List ResourceSKU) → List PageResult
  | [] => [.ok { Value := [], NextLink := none }]
  | [page] => [.ok { Value := page, NextLink := none }]
  | page :: next :: rest =>
    .ok { Value := page, NextLink := some "next" } :: served (next :: rest)

/-- The lists of results that are the calls of one run whose loop ends: after
every call but the last `pager.More()` holds, after the last it fails. -/
def endsLoop : List PageResult → Bool
  | [] => false
  | [result] => !pagerMore result
  | result :: next :: rest => pagerMore result && endsLoop (next :: rest)

/-- The UTF-8 encoding of a rune: the bytes a Go string holds for it. -/
def utf8Bytes (c : Char) : List Nat :=
  if c.toNat < 0x80 then [c.toNat]
  else if c.toNat < 0x800 then [0xC0 + c.toNat / 64, 0x80 + c.toNat % 64]
  else if c.toNat < 0x10000 then
    [0xE0 + c.toNat / 4096, 0x80 + c.toNat / 64 % 64, 0x80 + c.toNat % 64]
  else
    [0xF0 + c.toNat / 262144, 0x80 + c.toNat / 4096 % 64, 0x80 + c.toNat / 64 % 64,
      0x80 + c.toNat % 64]

/-- The bytes of a string. -/
def stringBytes (s : String) : List Nat :=
  s.data.flatMap utf8Bytes

/-- The records `writeSkuData` renders without a nil dereference: every restriction
has its restriction info, every capability its name and value, and every
location-info entry with two or more zones has no nil zone. -/
def Renderable (sku : ResourceSKU) : Prop :=
  (∀ r ∈ sku.Restrictions, r.RestrictionInfo ≠ none) ∧
  (∀ c ∈ sku.Capabilities, c.Name ≠ none ∧ c.Value ≠ none) ∧
  (∀ li ∈ sku.LocationInfo, li.Zones.length < 2 ∨ ∀ z ∈ li.Zones, z ≠ none)

/-! ## Reading a rendered literal back -/

/-- The value of a hexadecimal digit of `lowerhex`. -/
def hexValue (c : Char) : Nat :=
  if c.toNat < 58 then c.toNat - 48 else c.toNat - 87

/-- The structural parse of one escaped rune of a double-quoted literal: the rune
and the rest of the text. -/
def unescapeRune : List Char → Option (Char × List Char)
  | [] => none
  | c :: rest =>
    if c = '\\' then
      match rest with
      | [] => none
      | e :: rest =>
        if e = '\"' ∨ e = '\\' then some (e, rest)
        else if e = 'a' then some (Char.ofNat 7, rest)
        else if e = 'b' then some (Char.ofNat 8, rest)
        else if e = 'f' then some (Char.ofNat 12, rest)
        else if e = 'n' then some (Char.ofNat 10, rest)
        else if e = 'r' then some (Char.ofNat 13, rest)
        else if e = 't' then some (Char.ofNat 9, rest)
        else if e = 'v' then some (Char.ofNat 11, rest)
        else if e = 'x' then
          match rest with
          | h1 :: h2 :: rest => some (Char.ofNat (hexValue h1 * 16 + hexValue h2), rest)
          | _ => none
        else if e = 'u' then
          match rest with
          | h1 :: h2 :: h3 :: h4 :: rest =>
            some (Char.ofNat (hexValue h1 * 4096 + hexValue h2 * 256 + hexValue h3 * 16 +
              hexValue h4), rest)
          | _ => none
        else if e = 'U' then
          match rest with
          | h1 :: h2 :: h3 :: h4 :: h5 :: h6 :: h7 :: h8 :: rest =>
            some (Char.ofNat (hexValue h1 * 268435456 + hexValue h2 * 16777216 +
              hexValue h3 * 1048576 + hexValue h4 * 65536 + hexValue h5 * 4096 +
              hexValue h6 * 256 + hexValue h7 * 16 + hexValue h8), rest)
          | _ => none
        else none
    else some (c, rest)

/-- One step of the scan for the text `"\n\t\tR"`: the state is the number of its
characters matched so far, `4` once it has been seen. -/
def markerStep (s : Fin 5) (c : Char) : Fin 5 :=
  if s = 4 then 4
  else if c = '\n' then 1
  else if s = 1 ∧ c = '\t' then 2
  else if s = 2 ∧ c = '\t' then 3
  else if s = 3 ∧ c = 'R' then 4
  else 0

/-- The scan of a text from a state. -/
def markerScan (s : Fin 5) (l : List Char) : Fin 5 :=
  l.foldl markerStep s

/-- A text in which `"\n\t\tR"` neither occurs nor is completed, whatever
precedes it. -/
def MarkerFree (p : String) : Prop :=
  ∀ s : Fin 5, s ≠ 4 → markerScan s p.data ≠ 4

/-- The number a list of decimal digits stands for. -/
def digitsValue (l : List Char) : Nat :=
  l.foldl (fun acc c => acc * 10 + (c.toNat - 48)) 0

/-- The text of a rendering that did not panic. -/
def textOf (r : Except String String) : String :=
  match r with
  | .ok text => text
  | .error _ => ""

/-- The numbers of a capacity range as rendered: absent ones as `0`. -/
def capacityView (c : ResourceSKUCapacity) : Int × Int × Int :=
  (FromPtrOr c.Minimum 0, FromPtrOr c.Maximum 0, FromPtrOr c.Default 0)

/-- The attributes of a restriction entry as rendered: absent strings as `""`. -/
def restrictionView (r : ResourceSKURestrictions) :
    String × List String × Option (List String × List String) × String :=
  (FromPtrOr r.RestrictionType "", r.Values.map (fun v => FromPtrOr v ""),
    r.RestrictionInfo.map (fun info => (info.Locations.map FromPtr, info.Zones.map FromPtr)),
    FromPtrOr r.ReasonCode "")

/-- The zones of a location-info entry in rendered order. -/
def zoneView (li : ResourceSKULocationInfo) : List String :=
  match sortZones li.Zones with
  | .ok zones => zones.map FromPtr
  | .error _ => []

instance (p : String) : Decidable (MarkerFree p) := by
  unfold MarkerFree
  infer_instance

/-- The literal up to the opening of its `Costs` list. -/
def skuHead (wide : Char → Bool) (sku : ResourceSKU) : String :=
  "\t\x7b\n" ++ renderScalars wide sku ++ renderAPIVersions wide sku.APIVersions ++
    renderCapacity sku.Capacity ++ "\t\tCosts: &[]compute.ResourceSkuCosts\x7b"

/-- The literal from the second letter of its `Restrictions` field on. -/
def skuTail (wide : Char → Bool) (location : String) (sku : ResourceSKU) : String :=
  "estrictions: &[]compute.ResourceSkuRestrictions\x7b\n" ++
    joinMap (fun r => textOf (renderRestriction wide r)) sku.Restrictions ++ "\t\t\x7d,\n" ++
    "\t\tCapabilities: &[]compute.ResourceSkuCapabilities\x7b\n" ++
    joinMap (fun c => textOf (renderCapability wide c)) sku.Capabilities ++ "\t\t\x7d,\n" ++
    renderLocations wide location ++
    "\t\tLocationInfo: &[]compute.ResourceSkuLocationInfo\x7b" ++
    joinMap (fun li => textOf (renderLocationInfo wide location li)) sku.LocationInfo ++
    "\t\t\t\x7d,\n" ++ "\t\x7d,\n" ++ "\x7d,\n"

/-! ## Sample inputs -/

/-- A record with the given name and the zones of one location-info entry, every
other attribute absent or empty. -/
def sampleSku (name : Option String) (zones : List (Option String)) : ResourceSKU :=
  { Name := name, Tier := none, Kind := none, Size := none, Family := none,
    ResourceType := none, APIVersions := [], Capacity := none, Costs := [],
    Restrictions := [], Capabilities := [], Locations := [],
    LocationInfo := [{ Location := none, Zones := zones }] }

/-- A restriction entry with the given affected values and an empty restriction
info. -/
def sampleRestriction (values : List (Option String)) : ResourceSKURestrictions :=
  { RestrictionType := some "Zone", Values := values,
    RestrictionInfo := some { Locations := [], Zones := [] }, ReasonCode := none }

/-- The sample record with one restriction entry. -/
def sampleRestrictedSku (values : List (Option String)) : ResourceSKU :=
  { sampleSku (some "Standard_D2s_v3") [] with Restrictions := [sampleRestriction values] }

/-- The sample record with a capacity range. -/
def sampleCapacitySku (capacity : ResourceSKUCapacity) : ResourceSKU :=
  { sampleSku none [] with Capacity := some capacity }

/-- The sample record with the given location in its location-info entry. -/
def sampleLocatedSku (location : Option String) : ResourceSKU :=
  { sampleSku (some "Standard_D2s_v3") [] with
    LocationInfo := [{ Location := location, Zones := [some "1"] }] }

/-- A cost entry with the given quantity. -/
def sampleCost (quantity : Int) : ResourceSKUCosts :=
  { MeterID := some "meter", Quantity := some quantity, ExtendedUnit := some "unit" }

/-- The sample record with the given number of location-info entries, each
without zones. -/
def sampleEntriesSku (entries : Nat) : ResourceSKU :=
  { sampleSku (some "Standard_D2s_v3") [] with
    LocationInfo := List.replicate entries { Location := none, Zones := [] } }

/-- The number of opening braces of a text less the number of closing ones. -/
def braceBalance : List Char → Int
  | [] => 0
  | c :: rest =>
    (if c = '\x7b' then 1 else if c = '\x7d' then -1 else 0) + braceBalance rest

/-- A world in which every external call succeeds. -/
def sampleWorld (subscriptionID : String) (args : List String) (pages : List PageResult) :
    World :=
  { subscriptionID := subscriptionID, args := args, credentialError := none,
    clientError := none, pages := pages, boilerplate := .ok "// license",
    now := "2024-01-01T00:00:00Z", writeError := none, wide := fun _ => true }

/-! ## The fetch loop -/

theorem filterPage_named (T : List String) (page : List ResourceSKU) :
    ∀ skuData : List ResourceSKU, (∀ r ∈ page, r.Name ≠ none) →
      filterPage T skuData page = .ok (skuData ++ nameFilter T page) := by
  induction page with
  | nil => intro skuData _; simp [filterPage, nameFilter]
  | cons sku rest ih =>
    intro skuData h
    have hrest : ∀ r ∈ rest, r.Name ≠ none := fun r hr => h r (List.mem_cons_of_mem _ hr)
    have hsku : sku.Name ≠ none := h sku (List.mem_cons_self _ _)
    cases hn : sku.Name with
    | none => exact absurd hn hsku
    | some name =>
      by_cases hm : name ∈ T
      · simp [filterPage, deref, hn, hm, ih _ hrest, nameFilter, nameIn, List.filter_cons]
      · simp [filterPage, deref, hn, hm, ih _ hrest, nameFilter, nameIn, List.filter_cons]

theorem filterPage_ok_named (T : List String) (page : List ResourceSKU) :
    ∀ skuData l : List ResourceSKU, filterPage T skuData page = .ok l →
      ∀ r ∈ page, r.Name ≠ none := by
  induction page with
  | nil => intro _ _ _ r hr; cases hr
  | cons sku rest ih =>
    intro skuData l h r hr
    cases hn : sku.Name with
    | none => simp [filterPage, deref, hn] at h
    | some name =>
      rcases List.mem_cons.mp hr with rfl | hr
      · simp [hn]
      · by_cases hm : name ∈ T
        · simp [filterPage, deref, hn, hm] at h
          exact ih _ _ h r hr
        · simp [filterPage, deref, hn, hm] at h
          exact ih _ _ h r hr

theorem filterPage_append (T : List String) (p q : List ResourceSKU) :
    ∀ skuData : List ResourceSKU,
      filterPage T skuData (p ++ q) =
        match filterPage T skuData p with
        | .error e => .error e
        | .ok collected => filterPage T collected q := by
  induction p with
  | nil => intro skuData; simp [filterPage]
  | cons sku rest ih =>
    intro skuData
    cases hn : sku.Name with
    | none => simp [filterPage, deref, hn]
    | some name =>
      by_cases hm : name ∈ T
      · simp [filterPage, deref, hn, hm, ih]
      · simp [filterPage, deref, hn, hm, ih]

theorem successRecords_cons (r : PageResult) (rest : List PageResult) :
    successRecords (r :: rest) = pageValue r ++ successRecords rest := by
  cases r <;> simp [successRecords, pageValue]

theorem fetchLoop_ends (T : List String) (results : List PageResult) :
    ∀ skuData : List ResourceSKU, endsLoop results = true →
      (fetchLoop T results skuData).2 =
        match filterPage T skuData (successRecords results) with
        | .ok l => Fetched.done l
        | .error e => Fetched.panic e := by
  induction results with
  | nil => intro _ h; simp [endsLoop] at h
  | cons r rest ih =>
    intro skuData h
    rw [successRecords_cons, filterPage_append]
    simp only [fetchLoop]
    cases hp : filterPage T skuData (pageValue r) with
    | error e => rfl
    | ok collected =>
      cases rest with
      | nil =>
        have hm : pagerMore r = false := by simpa [endsLoop] using h
        simp [hm, successRecords, filterPage]
      | cons n rest =>
        have hm : pagerMore r = true ∧ endsLoop (n :: rest) = true := by
          simpa [endsLoop] using h
        simp only [hm.1, if_true]
        exact ih collected hm.2

theorem fetchLoop_events (T : List String) (results : List PageResult) :
    ∀ skuData l : List ResourceSKU, endsLoop results = true →
      (fetchLoop T results skuData).2 = .done l →
      (fetchLoop T results skuData).1 = results.flatMap pageEvents := by
  induction results with
  | nil => intro _ _ h; simp [endsLoop] at h
  | cons r rest ih =>
    intro skuData l h hd
    simp only [fetchLoop] at hd ⊢
    cases hp : filterPage T skuData (pageValue r) with
    | error e => simp [hp] at hd
    | ok collected =>
      simp only [hp] at hd ⊢
      cases rest with
      | nil =>
        have hm : pagerMore r = false := by simpa [endsLoop] using h
        simp [hm]
      | cons n rest =>
        have hm : pagerMore r = true ∧ endsLoop (n :: rest) = true := by
          simpa [endsLoop] using h
        simp only [hm.1, if_true] at hd ⊢
        simp [ih collected l hm.2 hd]

theorem fetchLoop_looping (T : List String) (results : List PageResult) :
    ∀ skuData : List ResourceSKU, (∀ r ∈ results, pagerMore r = true) →
      (∀ r ∈ successRecords results, r.Name ≠ none) →
      fetchLoop T results skuData =
        (results.flatMap pageEvents,
          .pending (skuData ++ nameFilter T (successRecords results))) := by
  induction results with
  | nil => intro skuData _ _; simp [fetchLoop, successRecords, nameFilter]
  | cons r rest ih =>
    intro skuData hm hn
    rw [successRecords_cons] at hn
    have hp := filterPage_named T (pageValue r) skuData
      (fun x hx => hn x (List.mem_append_left _ hx))
    have hrest := ih (skuData ++ nameFilter T (pageValue r))
      (fun x hx => hm x (List.mem_cons_of_mem _ hx))
      (fun x hx => hn x (List.mem_append_right _ hx))
    simp only [fetchLoop, hp, hm r (List.mem_cons_self _ _), if_true, hrest,
      successRecords_cons]
    simp [nameFilter]

theorem fetchLoop_never_done (T : List String) (results : List PageResult) :
    ∀ skuData l : List ResourceSKU, (∀ r ∈ results, pagerMore r = true) →
      (fetchLoop T results skuData).2 ≠ .done l := by
  induction results with
  | nil => intro _ _ _ h; simp [fetchLoop] at h
  | cons r rest ih =>
    intro skuData l hm h
    simp only [fetchLoop] at h
    cases hp : filterPage T skuData (pageValue r) with
    | error e => simp [hp] at h
    | ok collected =>
      simp only [hp, hm r (List.mem_cons_self _ _), if_true] at h
      exact ih collected l (fun x hx => hm x (List.mem_cons_of_mem _ hx)) h

theorem served_endsLoop (pages : List (List ResourceSKU)) : endsLoop (served pages) = true := by
  induction pages with
  | nil => rfl
  | cons page rest ih =>
    cases rest with
    | nil => rfl
    | cons n rest =>
      cases hs : served (n :: rest) with
      | nil => simp [hs, endsLoop] at ih
      | cons x xs =>
        rw [hs] at ih
        simp [served, hs, endsLoop, pagerMore, hasNext, ih]

theorem successRecords_served (pages : List (List ResourceSKU)) :
    successRecords (served pages) = pages.flatten := by
  induction pages with
  | nil => rfl
  | cons page rest ih =>
    cases rest with
    | nil => simp [served, successRecords]
    | cons n rest => simp [served, successRecords, ih]

theorem main_of_done (w : World) (a0 a1 path region selectedSkus : String)
    (more : List String) (fetched : List Event) (skuData : List ResourceSKU)
    (hargs : w.args = a0 :: a1 :: path :: region :: selectedSkus :: more)
    (hsub : w.subscriptionID ≠ "") (hcred : w.credentialError = none)
    (hclient : w.clientError = none)
    (hloop : fetchLoop (targetSet (Split selectedSkus ',')) w.pages [] =
      (fetched, .done skuData)) :
    main w =
      ([Event.stdout "starting generation of sku data...\n", Event.newCredential,
          Event.newClient] ++ fetched ++
        [Event.stdout ("Successfully Fetched all the SKUs " ++
          fmtNat skuData.length ++ "\n")] ++
        (writeSkuData w skuData region path).1 ++
        (if (writeSkuData w skuData region path).2 = Outcome.returned then
          [Event.stdout "Successfully Generated all the SKUs\n"] else []),
        (writeSkuData w skuData region path).2) := by
  unfold main
  rw [hargs]
  simp only [hsub, if_false, hcred, hclient, hloop]
  rcases hw : writeSkuData w skuData region path with ⟨written, outcome⟩
  cases outcome <;> simp

theorem main_of_pending (w : World) (a0 a1 path region selectedSkus : String)
    (more : List String) (fetched : List Event) (skuData : List ResourceSKU)
    (hargs : w.args = a0 :: a1 :: path :: region :: selectedSkus :: more)
    (hsub : w.subscriptionID ≠ "") (hcred : w.credentialError = none)
    (hclient : w.clientError = none)
    (hloop : fetchLoop (targetSet (Split selectedSkus ',')) w.pages [] =
      (fetched, .pending skuData)) :
    main w =
      ([Event.stdout "starting generation of sku data...\n", Event.newCredential,
          Event.newClient] ++ fetched, Outcome.unfinished) := by
  unfold main
  rw [hargs]
  simp only [hsub, if_false, hcred, hclient, hloop]

theorem fetchLoop_done_iff (T : List String) (results : List PageResult)
    (l : List ResourceSKU) (hends : endsLoop results = true) :
    (fetchLoop T results []).2 = .done l ↔
      (∀ r ∈ successRecords results, r.Name ≠ none) ∧
        l = nameFilter T (successRecords results) := by
  rw [fetchLoop_ends T _ [] hends]
  constructor
  · intro h
    cases hf : filterPage T [] (successRecords results) with
    | error e => simp [hf] at h
    | ok collected =>
      have hnamed := filterPage_ok_named T _ _ _ hf
      simp only [hf] at h
      rw [filterPage_named T _ _ hnamed] at hf
      refine ⟨hnamed, ?_⟩
      have h1 := Except.ok.inj hf
      have h2 := Fetched.done.inj h
      rw [← h2, ← h1]
      simp
  · rintro ⟨hnamed, rfl⟩
    rw [filterPage_named T _ [] hnamed]
    simp

/-- C1. For every target-name set `T` and every sequence of pages, fetched
without a failure, the fetch loop ends with a list `l` exactly when every
fetched record carries a name (the loop dereferences it), and `l` is then the
name filter of the concatenated pages `R`: a subsequence of `R`, in the order
of `R`, holding each record whose name is in `T` as often as `R` does and no
other record. The same holds of every sequence of page results on which the
loop ends, with `R` the records of the successful pages. -/
theorem fetchLoop_collects_name_filter (T : List String) (pages : List (List ResourceSKU))
    (l : List ResourceSKU) :
    ((fetchLoop T (served pages) []).2 = .done l ↔
      (∀ r ∈ pages.flatten, r.Name ≠ none) ∧ l = nameFilter T pages.flatten) ∧
    (nameFilter T pages.flatten).Sublist pages.flatten ∧
    (∀ r, r ∈ nameFilter T pages.flatten ↔ r ∈ pages.flatten ∧ nameIn T r = true) ∧
    (∀ r, (nameFilter T pages.flatten).count r =
      if nameIn T r = true then pages.flatten.count r else 0) ∧
    (∀ results : List PageResult, endsLoop results = true →
      ((fetchLoop T results []).2 = .done l ↔
        (∀ r ∈ successRecords results, r.Name ≠ none) ∧
          l = nameFilter T (successRecords results))) := by
  refine ⟨?_, List.filter_sublist _, ?_, ?_, ?_⟩
  · rw [fetchLoop_done_iff T _ l (served_endsLoop pages), successRecords_served]
  · intro r
    unfold nameFilter
    rw [List.mem_filter]
  · intro r
    unfold nameFilter
    by_cases h : nameIn T r = true
    · rw [if_pos h]
      exact List.count_filter h
    · rw [if_neg h]
      apply List.count_eq_zero_of_not_mem
      rw [List.mem_filter]
      exact fun hr => h hr.2
  · intro results hends
    exact fetchLoop_done_iff T results l hends

theorem fetchLoop_collects_name_filter_witness :
    (fetchLoop ["Standard_D2s_v3"]
      (served [[sampleSku (some "Standard_D2s_v3") [some "2", some "1"],
         sampleSku (some "Standard_D4s_v3") []]]) []).2 =
      .done [sampleSku (some "Standard_D2s_v3") [some "2", some "1"]] ∧
    (fetchLoop ["Standard_D2s_v3"]
      [.ok { Value := [sampleSku (some "Standard_D4s_v3") []], NextLink := some "page2" },
        .ok { Value := [sampleSku (some "Standard_D2s_v3") [some "2", some "1"]],
              NextLink := some "" }] []).2 =
      .done [sampleSku (some "Standard_D2s_v3") [some "2", some "1"]] :=
  ⟨(fetchLoop_collects_name_filter ["Standard_D2s_v3"]
    [[sampleSku (some "Standard_D2s_v3") [some "2", some "1"],
      sampleSku (some "Standard_D4s_v3") []]]
    [sampleSku (some "Standard_D2s_v3") [some "2", some "1"]]).1.mpr
    ⟨by decide, by decide⟩,
   ((fetchLoop_collects_name_filter ["Standard_D2s_v3"] []
    [sampleSku (some "Standard_D2s_v3") [some "2", some "1"]]).2.2.2.2
    [.ok { Value := [sampleSku (some "Standard_D4s_v3") []], NextLink := some "page2" },
      .ok { Value := [sampleSku (some "Standard_D2s_v3") [some "2", some "1"]],
            NextLink := some "" }] rfl).mpr ⟨by decide, by decide⟩⟩

theorem writeSkuData_writes (w : World) (skuData : List ResourceSKU)
    (region path license src : String) (hb : w.boilerplate = .ok license)
    (hr : renderFile w.wide license w.now region skuData = .ok src) :
    Event.writeFile path src ∈ (writeSkuData w skuData region path).1 := by
  unfold writeSkuData
  rw [hb]
  simp only [hr]
  cases w.writeError <;> simp

/-- C9, counterexample. A page failure that persists keeps the loop from
ending: the pager does not advance on a failed call, `pager.More()` still
holds, and the same page is requested again. After a first page that names a
next one, two failed calls leave `main` in the loop, with both failures
printed and no file read or written; so does a listing whose first call fails
twice. -/
theorem page_failure_repeats :
    main (sampleWorld "sub" ["gen", "--", "out.go", "eastus", "Standard_D2s_v3"]
      [.ok { Value := [sampleSku (some "Standard_D2s_v3") [some "1"]],
             NextLink := some "next" },
        .error "timeout", .error "timeout"]) =
      ([Event.stdout "starting generation of sku data...\n", Event.newCredential,
        Event.newClient, Event.nextPage,
        Event.nextPage, Event.stdout "failed to get next page: timeout",
        Event.nextPage, Event.stdout "failed to get next page: timeout"],
        Outcome.unfinished) ∧
    main (sampleWorld "sub" ["gen", "--", "out.go", "eastus", "Standard_D2s_v3"]
      [.error "400", .error "400"]) =
      ([Event.stdout "starting generation of sku data...\n", Event.newCredential,
        Event.newClient,
        Event.nextPage, Event.stdout "failed to get next page: 400",
        Event.nextPage, Event.stdout "failed to get next page: 400"],
        Outcome.unfinished) := by
  constructor <;> rfl

/-- C9, amended. A failed page fetch is reported, adds no record, discards none
of the records collected so far, and is followed by another request: the loop
goes on with the results that follow. On every sequence of results on which
the loop ends (a successful page without a next link comes last), the loop ends
with the name filter of the records of the successful pages, in page order, or
panics on a record without a name; when every record carries a name all the
requests are made and every failure is printed, and `main` hands the list to
`writeSkuData`, ends the way `writeSkuData` ends, and writes the rendered file.
On a sequence on which `pager.More()` holds after every result, as it does
after every failure, the loop does not end: `main` neither reads the
boilerplate file nor writes the output file. -/
theorem page_failure_retried (T : List String) (results : List PageResult) :
    (∀ (e : String) (skuData : List ResourceSKU),
      fetchLoop T (.error e :: results) skuData =
        ([Event.nextPage, Event.stdout ("failed to get next page: " ++ e)] ++
          (fetchLoop T results skuData).1, (fetchLoop T results skuData).2)) ∧
    (endsLoop results = true →
      (fetchLoop T results []).2 =
        match filterPage T [] (successRecords results) with
        | .ok l => Fetched.done l
        | .error e => Fetched.panic e) ∧
    (endsLoop results = true → (∀ r ∈ successRecords results, r.Name ≠ none) →
      fetchLoop T results [] =
        (results.flatMap pageEvents, .done (nameFilter T (successRecords results)))) ∧
    (∀ (w : World) (a0 a1 path region selectedSkus : String) (more : List String)
      (skuData : List ResourceSKU),
      w.args = a0 :: a1 :: path :: region :: selectedSkus :: more →
      w.subscriptionID ≠ "" → w.credentialError = none → w.clientError = none →
      w.pages = results → T = targetSet (Split selectedSkus ',') →
      (fetchLoop T results []).2 = .done skuData →
      main w =
        ([Event.stdout "starting generation of sku data...\n", Event.newCredential,
            Event.newClient] ++ (fetchLoop T results []).1 ++
          [Event.stdout ("Successfully Fetched all the SKUs " ++
            fmtNat skuData.length ++ "\n")] ++
          (writeSkuData w skuData region path).1 ++
          (if (writeSkuData w skuData region path).2 = Outcome.returned then
            [Event.stdout "Successfully Generated all the SKUs\n"] else []),
          (writeSkuData w skuData region path).2) ∧
      ∀ license src, w.boilerplate = .ok license →
        renderFile w.wide license w.now region skuData = .ok src →
        Event.writeFile path src ∈ (main w).1) ∧
    ((∀ r ∈ results, pagerMore r = true) →
      (∀ l, (fetchLoop T results []).2 ≠ .done l) ∧
      ((∀ r ∈ successRecords results, r.Name ≠ none) →
        ∀ (w : World) (a0 a1 path region selectedSkus : String) (more : List String),
          w.args = a0 :: a1 :: path :: region :: selectedSkus :: more →
          w.subscriptionID ≠ "" → w.credentialError = none → w.clientError = none →
          w.pages = results → T = targetSet (Split selectedSkus ',') →
          main w =
            ([Event.stdout "starting generation of sku data...\n", Event.newCredential,
              Event.newClient] ++ results.flatMap pageEvents, Outcome.unfinished))) := by
  refine ⟨?_, fetchLoop_ends T results [], ?_, ?_, ?_⟩
  · intro e skuData
    simp [fetchLoop, pageValue, filterPage, pagerMore, pageEvents]
  · intro hends hnamed
    have hres : (fetchLoop T results []).2 =
        .done (nameFilter T (successRecords results)) := by
      rw [fetchLoop_ends T results [] hends, filterPage_named T _ [] hnamed]
      simp
    exact Prod.ext (fetchLoop_events T results [] _ hends hres) hres
  · intro w a0 a1 path region selectedSkus more skuData hargs hsub hcred hclient hpages hT
      hres
    have hloop : fetchLoop (targetSet (Split selectedSkus ',')) w.pages [] =
        ((fetchLoop T results []).1, .done skuData) := by
      rw [hpages, ← hT]
      exact Prod.ext rfl hres
    have hmain := main_of_done w a0 a1 path region selectedSkus more _ skuData hargs hsub
      hcred hclient hloop
    refine ⟨hmain, ?_⟩
    intro license src hb hr
    rw [hmain]
    simp only [List.mem_append]
    exact Or.inl (Or.inr (writeSkuData_writes w skuData region path license src hb hr))
  · intro hmore
    refine ⟨fun l => fetchLoop_never_done T results [] l hmore, ?_⟩
    intro hnamed w a0 a1 path region selectedSkus more hargs hsub hcred hclient hpages hT
    have hloop : fetchLoop (targetSet (Split selectedSkus ',')) w.pages [] =
        (results.flatMap pageEvents, .pending ([] ++ nameFilter T (successRecords results))) := by
      rw [hpages, ← hT]
      exact fetchLoop_looping T results [] hmore hnamed
    exact main_of_pending w a0 a1 path region selectedSkus more _ _ hargs hsub hcred hclient
      hloop

theorem page_failure_retried_witness :
    fetchLoop ["Standard_D2s_v3"]
      [.ok { Value := [sampleSku (some "Standard_D4s_v3") []], NextLink := some "next" },
        .error "timeout",
        .ok { Value := [sampleSku (some "Standard_D2s_v3") [some "1"]],
              NextLink := none }] [] =
      ([Event.nextPage, Event.nextPage, Event.stdout "failed to get next page: timeout",
        Event.nextPage], .done [sampleSku (some "Standard_D2s_v3") [some "1"]]) ∧
    main (sampleWorld "sub" ["gen", "--", "out.go", "eastus", "Standard_D2s_v3"]
      [.error "400", .error "400", .error "400"]) =
      ([Event.stdout "starting generation of sku data...\n", Event.newCredential,
        Event.newClient,
        Event.nextPage, Event.stdout "failed to get next page: 400",
        Event.nextPage, Event.stdout "failed to get next page: 400",
        Event.nextPage, Event.stdout "failed to get next page: 400"],
        Outcome.unfinished) :=
  ⟨(page_failure_retried ["Standard_D2s_v3"]
      [.ok { Value := [sampleSku (some "Standard_D4s_v3") []], NextLink := some "next" },
        .error "timeout",
        .ok { Value := [sampleSku (some "Standard_D2s_v3") [some "1"]],
              NextLink := none }]).2.2.1 rfl (by decide),
    ((page_failure_retried ["Standard_D2s_v3"]
      [.error "400", .error "400", .error "400"]).2.2.2.2 (by decide)).2 (by decide)
      (sampleWorld "sub" ["gen", "--", "out.go", "eastus", "Standard_D2s_v3"]
        [.error "400", .error "400", .error "400"])
      "gen" "--" "out.go" "eastus" "Standard_D2s_v3" [] rfl (by decide) rfl rfl rfl rfl⟩

theorem nameIn_empty_name (r : ResourceSKU) :
    nameIn [""] r = decide (r.Name = some "") := by
  cases hn : r.Name with
  | none => simp [nameIn, hn]
  | some name => simp [nameIn, hn]

theorem mem_targetSet (skus : List String) (x : String) : x ∈ targetSet skus ↔ x ∈ skus := by
  have h : ∀ (l acc : List String),
      x ∈ l.foldl (fun targetSkus sku => sku :: targetSkus) acc ↔ x ∈ l ∨ x ∈ acc := by
    intro l
    induction l with
    | nil => intro acc; simp
    | cons y ys ih =>
      intro acc
      rw [List.foldl_cons, ih]
      simp only [List.mem_cons]
      tauto
  simp [targetSet, h skus []]

theorem splitRunes_ne_nil (sep : Char) (cs : List Char) : splitRunes sep cs ≠ [] := by
  cases cs with
  | nil => simp [splitRunes]
  | cons c cs =>
    unfold splitRunes
    split
    · simp
    · split <;> simp

theorem targetSet_ne_nil (s : String) : targetSet (Split s ',') ≠ [] := by
  intro h
  cases hs : splitRunes ',' s.data with
  | nil => exact splitRunes_ne_nil _ _ hs
  | cons piece pieces =>
    have hmem : String.mk piece ∈ targetSet (Split s ',') := by
      rw [mem_targetSet]
      simp [Split, hs]
    rw [h] at hmem
    cases hmem

theorem nameFilter_eq_nil (T : List String) (R : List ResourceSKU)
    (h : ∀ r ∈ R, ∃ name, r.Name = some name ∧ name ∉ T) : nameFilter T R = [] := by
  unfold nameFilter
  rw [List.filter_eq_nil_iff]
  intro r hr
  obtain ⟨name, hname, hnot⟩ := h r hr
  simp [nameIn, hname, hnot]

/-- C7, counterexample. The names argument `""` does not give an empty target
set: `strings.Split` returns the one piece `""`, so a fetched record whose name
is the empty string is retained, and `main` reports one fetched SKU. -/
theorem empty_names_argument_keeps_record :
    (fetchLoop (targetSet (Split "" ','))
      [.ok { Value := [sampleSku (some "") []], NextLink := none }] []).2 =
      .done [sampleSku (some "") []] ∧
    Event.stdout "Successfully Fetched all the SKUs 1\n" ∈
      (main (sampleWorld "sub" ["gen", "--", "out.go", "eastus", ""]
        [.ok { Value := [sampleSku (some "") []], NextLink := none }])).1 := by
  constructor
  · rfl
  · decide

/-- C7, amended. The target-name set `main` builds from its names argument is
never empty; for the argument `""` it holds the one name `""`, under which
exactly the records named `""` are retained. Whenever the fetch loop ends and
every fetched record carries a name that is none of the names of the argument,
`main` retains no record: it reports 0 fetched SKUs and writes, under the output
path, the preamble followed by the assignment under the region key of a list
with no element, which is the text rendered for no record; then it returns. -/
theorem no_target_name_fetched (w : World) (a0 a1 path region selectedSkus license : String)
    (more : List String)
    (hargs : w.args = a0 :: a1 :: path :: region :: selectedSkus :: more)
    (hsub : w.subscriptionID ≠ "") (hcred : w.credentialError = none)
    (hclient : w.clientError = none) (hends : endsLoop w.pages = true)
    (hnames : ∀ r ∈ successRecords w.pages,
      ∃ name, r.Name = some name ∧ name ∉ Split selectedSkus ',')
    (hlicense : w.boilerplate = .ok license) (hwrite : w.writeError = none) :
    targetSet (Split selectedSkus ',') ≠ [] ∧
    targetSet (Split "" ',') = [""] ∧
    (∀ R, nameFilter (targetSet (Split "" ',')) R =
      R.filter (fun r => decide (r.Name = some ""))) ∧
    fetchLoop (targetSet (Split selectedSkus ',')) w.pages [] =
      (w.pages.flatMap pageEvents, .done []) ∧
    renderFile w.wide license w.now region [] =
      .ok (renderPreamble license w.now ++
        ("ResourceSkus[" ++ Quote w.wide region ++ "] = []compute.ResourceSku\x7b\n") ++
        "\x7d\n" ++ "\x7d\n") ∧
    main w =
      ([Event.stdout "starting generation of sku data...\n", Event.newCredential,
          Event.newClient] ++ w.pages.flatMap pageEvents ++
        [Event.stdout "Successfully Fetched all the SKUs 0\n",
          Event.readFile "hack/boilerplate.go.txt",
          Event.stdout ("writing file to " ++ path ++ "\n"),
          Event.writeFile path
            (renderPreamble license w.now ++
              ("ResourceSkus[" ++ Quote w.wide region ++ "] = []compute.ResourceSku\x7b\n") ++
              "\x7d\n" ++ "\x7d\n"),
          Event.stdout "Successfully Generated all the SKUs\n"], Outcome.returned) := by
  have hT : targetSet (Split "" ',') = [""] := by decide
  have hnamed : ∀ r ∈ successRecords w.pages, r.Name ≠ none := by
    intro r hr
    obtain ⟨name, hname, _⟩ := hnames r hr
    simp [hname]
  have hnil : nameFilter (targetSet (Split selectedSkus ',')) (successRecords w.pages) = [] :=
    nameFilter_eq_nil _ _ (fun r hr => by
      obtain ⟨name, hname, hnot⟩ := hnames r hr
      exact ⟨name, hname, fun hmem => hnot ((mem_targetSet _ _).1 hmem)⟩)
  have hres : (fetchLoop (targetSet (Split selectedSkus ',')) w.pages []).2 = .done [] := by
    rw [fetchLoop_ends _ _ [] hends, filterPage_named _ _ [] hnamed, hnil]
    rfl
  have hloop : fetchLoop (targetSet (Split selectedSkus ',')) w.pages [] =
      (w.pages.flatMap pageEvents, .done []) :=
    Prod.ext (fetchLoop_events _ _ [] _ hends hres) hres
  have hrender : renderFile w.wide license w.now region [] =
      .ok (renderPreamble license w.now ++
        ("ResourceSkus[" ++ Quote w.wide region ++ "] = []compute.ResourceSku\x7b\n") ++
        "\x7d\n" ++ "\x7d\n") := by
    simp [renderFile, renderSkus, renderEach, renderAssignment, String.append_assoc]
  refine ⟨targetSet_ne_nil selectedSkus, hT, ?_, hloop, hrender, ?_⟩
  · intro R
    rw [hT]
    unfold nameFilter
    congr 1
    funext r
    exact nameIn_empty_name r
  · rw [main_of_done w a0 a1 path region selectedSkus more _ [] hargs hsub hcred hclient hloop]
    have hw : writeSkuData w [] region path =
        ([Event.readFile "hack/boilerplate.go.txt",
          Event.stdout ("writing file to " ++ path ++ "\n"),
          Event.writeFile path
            (renderPreamble license w.now ++
              ("ResourceSkus[" ++ Quote w.wide region ++ "] = []compute.ResourceSku\x7b\n") ++
              "\x7d\n" ++ "\x7d\n")], Outcome.returned) := by
      unfold writeSkuData
      rw [hlicense]
      simp only [hrender, hwrite]
    rw [hw]
    have hzero : "Successfully Fetched all the SKUs " ++ fmtNat ([] : List ResourceSKU).length ++
        "\n" = "Successfully Fetched all the SKUs 0\n" := by decide
    rw [hzero]
    simp

theorem no_target_name_fetched_witness :
    main (sampleWorld "sub" ["gen", "--", "out.go", "eastus", ""]
      [.ok { Value := [sampleSku (some "Standard_D2s_v3") []], NextLink := some "next" },
        .ok { Value := [sampleSku (some "Standard_D4s_v3") []], NextLink := none }]) =
      ([Event.stdout "starting generation of sku data...\n", Event.newCredential,
          Event.newClient, Event.nextPage, Event.nextPage,
          Event.stdout "Successfully Fetched all the SKUs 0\n",
          Event.readFile "hack/boilerplate.go.txt",
          Event.stdout "writing file to out.go\n",
          Event.writeFile "out.go"
            (renderPreamble "// license" "2024-01-01T00:00:00Z" ++
              "ResourceSkus[\"eastus\"] = []compute.ResourceSku\x7b\n" ++
              "\x7d\n" ++ "\x7d\n"),
          Event.stdout "Successfully Generated all the SKUs\n"], Outcome.returned) :=
  (no_target_name_fetched
    (sampleWorld "sub" ["gen", "--", "out.go", "eastus", ""]
      [.ok { Value := [sampleSku (some "Standard_D2s_v3") []], NextLink := some "next" },
        .ok { Value := [sampleSku (some "Standard_D4s_v3") []], NextLink := none }])
    "gen" "--" "out.go" "eastus" "" "// license" [] rfl (by decide) rfl rfl rfl (by decide)
    rfl rfl).2.2.2.2.2

/-- C8, counterexample. With no subscription id and an argument list of one
element, `main` panics at `os.Args[2]`: it does not end with exit status 1 and
does not print the diagnostic. -/
theorem missing_subscription_short_args :
    (main (sampleWorld "" ["gen"] [])).2 ≠ Outcome.exit 1 ∧
    Event.stdout "SUBSCRIPTION_ID env var is required\n" ∉
      (main (sampleWorld "" ["gen"] [])).1 := by
  constructor <;> decide

/-- C8, amended. When the subscription id is missing or empty: with at least five
elements in `os.Args`, `main` prints the diagnostic and ends with exit status 1;
with fewer it panics on the argument read that precedes the check; in both
cases the only effects are prints, so no credential is acquired, no page is
listed, and the boilerplate file is not read nor the output file written. -/
theorem missing_subscription (w : World) (h : w.subscriptionID = "") :
    (5 ≤ w.args.length →
      main w = ([Event.stdout "starting generation of sku data...\n",
        Event.stdout "SUBSCRIPTION_ID env var is required\n"], Outcome.exit 1)) ∧
    (w.args.length < 5 →
      main w = ([Event.stdout "starting generation of sku data...\n"],
        Outcome.panic (indexOutOfRange w.args.length))) ∧
    (∀ ev ∈ (main w).1, ∃ text, ev = Event.stdout text) := by
  rcases hargs : w.args with _ | ⟨a0, _ | ⟨a1, _ | ⟨a2, _ | ⟨a3, _ | ⟨a4, more⟩⟩⟩⟩⟩ <;>
    simp [main, hargs, h]

theorem missing_subscription_witness :
    main (sampleWorld "" ["gen", "--", "out.go", "eastus", "Standard_D2s_v3"] []) =
      ([Event.stdout "starting generation of sku data...\n",
        Event.stdout "SUBSCRIPTION_ID env var is required\n"], Outcome.exit 1) :=
  (missing_subscription (sampleWorld "" ["gen", "--", "out.go", "eastus", "Standard_D2s_v3"] [])
    rfl).1 (by decide)

/-! ## Loops of the renderer -/

theorem renderEach_append {α : Type} (f : α → Except String String) (xs ys : List α) :
    renderEach f (xs ++ ys) =
      match renderEach f xs with
      | .error e => .error e
      | .ok a =>
        match renderEach f ys with
        | .error e => .error e
        | .ok b => .ok (a ++ b) := by
  induction xs with
  | nil => cases h : renderEach f ys <;> simp [renderEach, h]
  | cons x rest ih =>
    rw [List.cons_append, renderEach, renderEach, ih]
    cases f x <;> cases renderEach f rest <;> cases renderEach f ys <;>
      simp [String.append_assoc]

theorem renderEach_ok_iff {α : Type} (f : α → Except String String) (xs : List α) :
    ∀ out, renderEach f xs = .ok out ↔
      ∃ parts, List.Forall₂ (fun x part => f x = .ok part) xs parts ∧
        out = joinMap id parts := by
  induction xs with
  | nil =>
    intro out
    constructor
    · intro h
      exact ⟨[], List.Forall₂.nil, by simpa [renderEach, joinMap] using (Except.ok.inj h).symm⟩
    · rintro ⟨parts, hparts, rfl⟩
      cases hparts
      rfl
  | cons x rest ih =>
    intro out
    constructor
    · intro h
      simp only [renderEach] at h
      cases hx : f x with
      | error e => simp [hx] at h
      | ok a =>
        cases hr : renderEach f rest with
        | error e => simp [hx, hr] at h
        | ok b =>
          simp only [hx, hr] at h
          obtain ⟨parts, hparts, rfl⟩ := (ih b).1 hr
          exact ⟨a :: parts, List.Forall₂.cons hx hparts, by
            simpa [joinMap] using (Except.ok.inj h).symm⟩
    · rintro ⟨parts, hparts, rfl⟩
      cases hparts with
      | cons hx hrest =>
        have hr := (ih _).2 ⟨_, hrest, rfl⟩
        simp [renderEach, hx, hr, joinMap]

theorem renderEach_total {α : Type} (f : α → Except String String) (xs : List α) :
    (∃ out, renderEach f xs = .ok out) ↔ ∀ x ∈ xs, ∃ part, f x = .ok part := by
  induction xs with
  | nil => simp [renderEach]
  | cons x rest ih =>
    simp only [List.mem_cons, forall_eq_or_imp, ← ih]
    constructor
    · rintro ⟨out, h⟩
      simp only [renderEach] at h
      cases hx : f x with
      | error e => simp [hx] at h
      | ok a =>
        cases hr : renderEach f rest with
        | error e => simp [hx, hr] at h
        | ok b => exact ⟨⟨a, rfl⟩, ⟨b, rfl⟩⟩
    · rintro ⟨⟨a, hx⟩, ⟨b, hr⟩⟩
      exact ⟨a ++ b, by simp [renderEach, hx, hr]⟩

/-! ## The zone sort -/

theorem insertZone_perm (z : String) (l : List String) : (insertZone z l).Perm (z :: l) := by
  induction l with
  | nil => exact List.Perm.refl _
  | cons y ys ih =>
    unfold insertZone
    split
    · exact List.Perm.refl _
    · exact ((List.Perm.cons y ih).trans (List.Perm.swap z y ys))

theorem runesLess_iff (a : List Char) :
    ∀ b : List Char, runesLess a b = true ↔ List.Lex (· < ·) a b := by
  induction a with
  | nil =>
    intro b
    cases b with
    | nil => simp [runesLess, List.Lex.not_nil_right]
    | cons b bs => simp [runesLess, List.Lex.nil]
  | cons a as ih =>
    intro b
    cases b with
    | nil => simp [runesLess, List.Lex.not_nil_right]
    | cons b bs =>
      have hab : a.toNat < b.toNat ↔ a < b := Iff.rfl
      have hba : b.toNat < a.toNat ↔ b < a := Iff.rfl
      by_cases h1 : a < b
      · simp only [runesLess, hab.2 h1, if_true, true_iff]
        exact List.Lex.rel h1
      · by_cases h2 : b < a
        · simp only [runesLess, mt hab.1 h1, hba.2 h2, if_false, if_true]
          refine iff_of_false (by simp) ?_
          intro hlex
          cases hlex with
          | rel h => exact h1 h
          | cons h => exact lt_irrefl _ h2
        · have heq : a = b := le_antisymm (not_lt.mp h2) (not_lt.mp h1)
          subst heq
          simp only [runesLess, mt hab.1 h1, if_false, ih]
          exact List.Lex.cons_iff.symm

theorem stringLess_iff (a b : String) : stringLess a b = true ↔ a < b := by
  unfold stringLess
  rw [runesLess_iff, String.lt_iff_toList_lt]
  exact Iff.rfl

theorem insertZone_sorted (z : String) (l : List String) (h : l.Sorted (· ≤ ·)) :
    (insertZone z l).Sorted (· ≤ ·) := by
  induction l with
  | nil => simp [insertZone]
  | cons y ys ih =>
    unfold insertZone
    have hy := List.sorted_cons.mp h
    split
    · rename_i hlt
      have hlt := (stringLess_iff z y).1 hlt
      refine List.sorted_cons.mpr ⟨?_, h⟩
      intro b hb
      rcases List.mem_cons.mp hb with rfl | hb
      · exact le_of_lt hlt
      · exact le_trans (le_of_lt hlt) (hy.1 b hb)
    · rename_i hlt
      have hlt : ¬ z < y := fun hzy => hlt ((stringLess_iff z y).2 hzy)
      refine List.sorted_cons.mpr ⟨?_, ih hy.2⟩
      intro b hb
      rcases List.mem_cons.mp ((insertZone_perm z ys).subset hb) with rfl | hb
      · exact not_lt.mp hlt
      · exact hy.1 b hb

theorem foldl_insertZone (zs : List String) :
    ∀ sorted : List String, sorted.Sorted (· ≤ ·) →
      (zs.foldl (fun sorted z => insertZone z sorted) sorted).Sorted (· ≤ ·) ∧
      (zs.foldl (fun sorted z => insertZone z sorted) sorted).Perm (sorted ++ zs) := by
  induction zs with
  | nil => intro sorted h; simpa using h
  | cons z rest ih =>
    intro sorted h
    obtain ⟨h1, h2⟩ := ih (insertZone z sorted) (insertZone_sorted z sorted h)
    refine ⟨h1, h2.trans ?_⟩
    have : (insertZone z sorted ++ rest).Perm ((z :: sorted) ++ rest) :=
      List.Perm.append_right rest (insertZone_perm z sorted)
    have hmid : (sorted ++ z :: rest).Perm (z :: (sorted ++ rest)) := List.perm_middle
    exact this.trans (by simpa using hmid.symm)

theorem sortStrings_sorted (zs : List String) : (sortStrings zs).Sorted (· ≤ ·) :=
  (foldl_insertZone zs [] List.sorted_nil).1

theorem sortStrings_perm (zs : List String) : (sortStrings zs).Perm zs := by
  simpa using (foldl_insertZone zs [] List.sorted_nil).2

theorem sortZones_ok (zones sorted : List (Option String)) (h : sortZones zones = .ok sorted) :
    (sorted.map FromPtr).Sorted (· ≤ ·) ∧ (sorted.map FromPtr).Perm (zones.map FromPtr) := by
  unfold sortZones at h
  split at h
  · rename_i hlen
    rw [← Except.ok.inj h]
    refine ⟨?_, List.Perm.refl _⟩
    match zones, hlen with
    | [], _ => simp
    | [z], _ => simp
    | _ :: _ :: _, hlen => exact absurd hlen (by simp)
  · split at h
    · rw [← Except.ok.inj h]
      have hid : (List.map some (sortStrings (zones.map FromPtr))).map FromPtr =
          sortStrings (zones.map FromPtr) := by
        simp [List.map_map, Function.comp_def, FromPtr]
      rw [hid]
      exact ⟨sortStrings_sorted _, sortStrings_perm _⟩
    · cases h

theorem sortZones_total (zones : List (Option String)) :
    (∃ sorted, sortZones zones = .ok sorted) ↔
      (zones.length < 2 ∨ ∀ z ∈ zones, z ≠ none) := by
  unfold sortZones
  by_cases hlen : zones.length < 2
  · simp [hlen]
  · by_cases hall : zones.all Option.isSome = true
    · simp only [hlen, hall, if_false, if_true, false_or]
      refine ⟨fun _ z hz => ?_, fun _ => ⟨_, rfl⟩⟩
      have := List.all_eq_true.mp hall z hz
      intro hnone
      simp [hnone] at this
    · simp only [hlen, hall, if_false, false_or]
      constructor
      · rintro ⟨_, h⟩
        cases h
      · intro h
        exfalso
        apply hall
        apply List.all_eq_true.mpr
        intro z hz
        cases z with
        | none => exact absurd rfl (h none hz)
        | some v => rfl

/-! ## The per-SKU literal -/

theorem joinMap_map {α β : Type} (f : β → String) (g : α → β) (l : List α) :
    joinMap f (l.map g) = joinMap (fun a => f (g a)) l := by
  induction l with
  | nil => rfl
  | cons a rest ih => simp [joinMap, ih]

theorem joinMap_append {α : Type} (f : α → String) (xs ys : List α) :
    joinMap f (xs ++ ys) = joinMap f xs ++ joinMap f ys := by
  induction xs with
  | nil => simp [joinMap]
  | cons a rest ih => simp [joinMap, ih, String.append_assoc]

theorem renderRestriction_total (wide : Char → Bool) (r : ResourceSKURestrictions) :
    (∃ part, renderRestriction wide r = .ok part) ↔ r.RestrictionInfo ≠ none := by
  unfold renderRestriction
  cases r.RestrictionInfo <;> simp [deref]

theorem renderCapability_total (wide : Char → Bool) (c : ResourceSKUCapabilities) :
    (∃ part, renderCapability wide c = .ok part) ↔ c.Name ≠ none ∧ c.Value ≠ none := by
  unfold renderCapability
  cases c.Name <;> cases c.Value <;> simp [deref]

theorem renderLocationInfo_total (wide : Char → Bool) (location : String)
    (li : ResourceSKULocationInfo) :
    (∃ part, renderLocationInfo wide location li = .ok part) ↔
      (li.Zones.length < 2 ∨ ∀ z ∈ li.Zones, z ≠ none) := by
  rw [← sortZones_total]
  unfold renderLocationInfo
  cases sortZones li.Zones <;> simp

theorem renderSku_total (wide : Char → Bool) (location : String) (sku : ResourceSKU) :
    (∃ out, renderSku wide location sku = .ok out) ↔ Renderable sku := by
  have h1 := renderEach_total (renderRestriction wide) sku.Restrictions
  have h2 := renderEach_total (renderCapability wide) sku.Capabilities
  have h3 := renderEach_total (renderLocationInfo wide location) sku.LocationInfo
  simp only [renderRestriction_total] at h1
  simp only [renderCapability_total] at h2
  simp only [renderLocationInfo_total] at h3
  unfold Renderable
  rw [← h1, ← h2, ← h3]
  unfold renderSku renderRestrictions renderCapabilities renderLocationInfos
  cases renderEach (renderRestriction wide) sku.Restrictions <;>
    cases renderEach (renderCapability wide) sku.Capabilities <;>
    cases renderEach (renderLocationInfo wide location) sku.LocationInfo <;> simp

theorem renderSku_ok (wide : Char → Bool) (location : String) (sku : ResourceSKU)
    (out : String) (h : renderSku wide location sku = .ok out) :
    ∃ restrictions capabilities entries,
      renderRestrictions wide sku.Restrictions = .ok restrictions ∧
      renderCapabilities wide sku.Capabilities = .ok capabilities ∧
      List.Forall₂ (fun li entry => renderLocationInfo wide location li = .ok entry)
        sku.LocationInfo entries ∧
      out = "\t\x7b\n" ++ renderScalars wide sku ++ renderAPIVersions wide sku.APIVersions ++
        renderCapacity sku.Capacity ++ renderCosts wide sku.Costs ++ restrictions ++
        capabilities ++ renderLocations wide location ++
        ("\t\tLocationInfo: &[]compute.ResourceSkuLocationInfo\x7b" ++ joinMap id entries ++
          "\t\t\t\x7d,\n") ++ "\t\x7d,\n" ++ "\x7d,\n" := by
  unfold renderSku at h
  cases hr : renderRestrictions wide sku.Restrictions with
  | error e => simp [hr] at h
  | ok restrictions =>
    cases hc : renderCapabilities wide sku.Capabilities with
    | error e => simp [hr, hc] at h
    | ok capabilities =>
      cases hl : renderLocationInfos wide location sku.LocationInfo with
      | error e => simp [hr, hc, hl] at h
      | ok locationInfo =>
        simp only [hr, hc, hl] at h
        unfold renderLocationInfos at hl
        cases he : renderEach (renderLocationInfo wide location) sku.LocationInfo with
        | error e => simp [he] at hl
        | ok body =>
          simp only [he] at hl
          obtain ⟨entries, hentries, rfl⟩ := (renderEach_ok_iff _ _ _).1 he
          refine ⟨restrictions, capabilities, entries, rfl, rfl, hentries, ?_⟩
          rw [← Except.ok.inj h, ← Except.ok.inj hl]

theorem lex_bytes2 (x1 x2 y1 y2 : Nat) (X Y : List Nat)
    (h : x1 < y1 ∨ (x1 = y1 ∧ x2 < y2)) :
    List.Lex (· < ·) (x1 :: x2 :: X) (y1 :: y2 :: Y) := by
  rcases h with h | ⟨rfl, h⟩
  · exact List.Lex.rel h
  · exact List.Lex.cons (List.Lex.rel h)

theorem lex_bytes3 (x1 x2 x3 y1 y2 y3 : Nat) (X Y : List Nat)
    (h : x1 < y1 ∨ (x1 = y1 ∧ (x2 < y2 ∨ (x2 = y2 ∧ x3 < y3)))) :
    List.Lex (· < ·) (x1 :: x2 :: x3 :: X) (y1 :: y2 :: y3 :: Y) := by
  rcases h with h | ⟨rfl, h⟩
  · exact List.Lex.rel h
  · exact List.Lex.cons (lex_bytes2 _ _ _ _ _ _ h)

theorem lex_bytes4 (x1 x2 x3 x4 y1 y2 y3 y4 : Nat) (X Y : List Nat)
    (h : x1 < y1 ∨ (x1 = y1 ∧ (x2 < y2 ∨ (x2 = y2 ∧ (x3 < y3 ∨ (x3 = y3 ∧ x4 < y4)))))) :
    List.Lex (· < ·) (x1 :: x2 :: x3 :: x4 :: X) (y1 :: y2 :: y3 :: y4 :: Y) := by
  rcases h with h | ⟨rfl, h⟩
  · exact List.Lex.rel h
  · exact List.Lex.cons (lex_bytes3 _ _ _ _ _ _ _ _ h)

theorem utf8Bytes_lt (a b : Char) (h : a.toNat < b.toNat) (X Y : List Nat) :
    List.Lex (· < ·) (utf8Bytes a ++ X) (utf8Bytes b ++ Y) := by
  unfold utf8Bytes
  generalize a.toNat = n at h ⊢
  generalize b.toNat = m at h ⊢
  split_ifs <;> simp only [List.cons_append, List.nil_append] <;>
    first
    | exact List.Lex.rel (by omega)
    | exact lex_bytes2 _ _ _ _ _ _ (by omega)
    | exact lex_bytes3 _ _ _ _ _ _ _ _ (by omega)
    | exact lex_bytes4 _ _ _ _ _ _ _ _ _ _ (by omega)

theorem utf8Bytes_lex_nil (c : Char) (Y : List Nat) :
    List.Lex (· < ·) [] (utf8Bytes c ++ Y) := by
  unfold utf8Bytes
  split_ifs <;> exact List.Lex.nil

theorem lex_stringBytes (a b : List Char) (h : List.Lex (· < ·) a b) :
    List.Lex (· < ·) (a.flatMap utf8Bytes) (b.flatMap utf8Bytes) := by
  induction h with
  | nil =>
    rw [List.flatMap_cons]
    exact utf8Bytes_lex_nil _ _
  | cons _ ih =>
    rw [List.flatMap_cons, List.flatMap_cons]
    exact List.Lex.append_left _ ih _
  | rel hlt =>
    rw [List.flatMap_cons, List.flatMap_cons]
    exact utf8Bytes_lt _ _ hlt _ _

theorem stringBytes_le (a b : String) (h : a ≤ b) :
    stringBytes a = stringBytes b ∨ List.Lex (· < ·) (stringBytes a) (stringBytes b) := by
  rcases eq_or_lt_of_le h with rfl | hlt
  · exact Or.inl rfl
  · exact Or.inr (lex_stringBytes _ _ (String.lt_iff_toList_lt.1 hlt))

theorem renderLocationInfo_ok (wide : Char → Bool) (location : String)
    (li : ResourceSKULocationInfo) (entry : String)
    (h : renderLocationInfo wide location li = .ok entry) :
    ∃ zones : List String, zones.Sorted (· ≤ ·) ∧
      zones.Pairwise (fun a b => stringBytes a = stringBytes b ∨
        List.Lex (· < ·) (stringBytes a) (stringBytes b)) ∧
      zones.Perm (li.Zones.map FromPtr) ∧
      entry = "\t\t\t\x7bLocation: lo.ToPtr(" ++ Quote wide location ++ ")," ++
        "\t\t\tZones: &[]string\x7b\n" ++
        joinMap (fun z => "\t\t\t\t" ++ Quote wide z ++ ",\n") zones ++ "\t\t\t\x7d,\n" := by
  unfold renderLocationInfo at h
  cases hs : sortZones li.Zones with
  | error e => simp [hs] at h
  | ok sorted =>
    simp only [hs] at h
    obtain ⟨h1, h2⟩ := sortZones_ok _ _ hs
    refine ⟨sorted.map FromPtr, h1, List.Pairwise.imp (fun hab => stringBytes_le _ _ hab) h1,
      h2, ?_⟩
    rw [← Except.ok.inj h, joinMap_map]
    rfl

/-- C2. In the text `writeSkuData` renders for a SKU record, every location-info
entry lists its zone strings in non-decreasing lexicographic order, whatever
their order in the record: the rendered zones are a rearrangement of the
entry's zones that is sorted under the order of strings, and in which the
UTF-8 bytes of each zone are equal to, or lexicographically less than, the
bytes of every zone rendered after it. The record is rendered whenever no nil
pointer is dereferenced. -/
theorem zones_rendered_sorted (wide : Char → Bool) (location : String) (sku : ResourceSKU) :
    (∀ out, renderSku wide location sku = .ok out →
      ∃ restrictions capabilities entries,
        renderRestrictions wide sku.Restrictions = .ok restrictions ∧
        renderCapabilities wide sku.Capabilities = .ok capabilities ∧
        out = "\t\x7b\n" ++ renderScalars wide sku ++
          renderAPIVersions wide sku.APIVersions ++ renderCapacity sku.Capacity ++
          renderCosts wide sku.Costs ++ restrictions ++ capabilities ++
          renderLocations wide location ++
          ("\t\tLocationInfo: &[]compute.ResourceSkuLocationInfo\x7b" ++
            joinMap id entries ++ "\t\t\t\x7d,\n") ++ "\t\x7d,\n" ++ "\x7d,\n" ∧
        List.Forall₂
          (fun li entry =>
            ∃ zones : List String, zones.Sorted (· ≤ ·) ∧
              zones.Pairwise (fun a b => stringBytes a = stringBytes b ∨
                List.Lex (· < ·) (stringBytes a) (stringBytes b)) ∧
              zones.Perm (li.Zones.map FromPtr) ∧
              entry = "\t\t\t\x7bLocation: lo.ToPtr(" ++ Quote wide location ++ ")," ++
                "\t\t\tZones: &[]string\x7b\n" ++
                joinMap (fun z => "\t\t\t\t" ++ Quote wide z ++ ",\n") zones ++
                "\t\t\t\x7d,\n")
          sku.LocationInfo entries) ∧
    (Renderable sku → ∃ out, renderSku wide location sku = .ok out) := by
  refine ⟨?_, (renderSku_total wide location sku).2⟩
  intro out h
  obtain ⟨restrictions, capabilities, entries, hr, hc, hentries, hout⟩ :=
    renderSku_ok wide location sku out h
  refine ⟨restrictions, capabilities, entries, hr, hc, hout, ?_⟩
  exact hentries.imp (fun li entry he => renderLocationInfo_ok wide location li entry he)

theorem zones_rendered_sorted_witness :
    renderLocationInfo (fun _ => true) "eastus"
      { Location := none, Zones := [some "2", some "1"] } =
      .ok ("\t\t\t\x7bLocation: lo.ToPtr(\"eastus\"),\t\t\tZones: &[]string\x7b\n" ++
        "\t\t\t\t\"1\",\n" ++ "\t\t\t\t\"2\",\n" ++ "\t\t\t\x7d,\n") ∧
    ∃ out entries,
      renderSku (fun _ => true) "eastus"
        (sampleSku (some "Standard_D2s_v3") [some "2", some "1"]) = .ok out ∧
      List.Forall₂
        (fun li entry =>
          ∃ zones : List String, zones.Sorted (· ≤ ·) ∧
            zones.Pairwise (fun a b => stringBytes a = stringBytes b ∨
              List.Lex (· < ·) (stringBytes a) (stringBytes b)) ∧
            zones.Perm (li.Zones.map FromPtr) ∧
            entry = "\t\t\t\x7bLocation: lo.ToPtr(" ++ Quote (fun _ => true) "eastus" ++ ")," ++
              "\t\t\tZones: &[]string\x7b\n" ++
              joinMap (fun z => "\t\t\t\t" ++ Quote (fun _ => true) z ++ ",\n") zones ++
              "\t\t\t\x7d,\n")
        (sampleSku (some "Standard_D2s_v3") [some "2", some "1"]).LocationInfo entries :=
  ⟨rfl,
    match (zones_rendered_sorted (fun _ => true) "eastus"
      (sampleSku (some "Standard_D2s_v3") [some "2", some "1"])).1 _ rfl with
    | ⟨_, _, entries, _, _, _, h⟩ => ⟨_, entries, rfl, h⟩⟩

theorem renderEach_map {α β : Type} (f : β → Except String String) (g : α → β)
    (xs : List α) : renderEach f (xs.map g) = renderEach (fun x => f (g x)) xs := by
  induction xs with
  | nil => rfl
  | cons x rest ih => simp [renderEach, ih]

/-- The rendered file is the preamble, then the assignment line under the region
key, then the text written for each input record, in input order, then the two
closing lines; the text written for `xs ++ ys` is the text for `xs` followed by
the text for `ys`. The file is rendered whenever no record makes the renderer
dereference a nil pointer. -/
theorem renderFile_in_input_order (wide : Char → Bool) (license now location : String)
    (xs ys skus : List ResourceSKU) :
    (renderSkus wide location (xs ++ ys) =
      match renderSkus wide location xs with
      | .error e => .error e
      | .ok a =>
        match renderSkus wide location ys with
        | .error e => .error e
        | .ok b => .ok (a ++ b)) ∧
    (∀ out, renderFile wide license now location skus = .ok out ↔
      ∃ literals,
        List.Forall₂ (fun sku literal => renderSku wide location sku = .ok literal)
          skus literals ∧
        out = renderPreamble license now ++
          ("ResourceSkus[" ++ Quote wide location ++ "] = []compute.ResourceSku\x7b\n") ++
          joinMap id literals ++ "\x7d\n" ++ "\x7d\n") ∧
    ((∀ sku ∈ skus, Renderable sku) →
      ∃ out, renderFile wide license now location skus = .ok out) := by
  refine ⟨renderEach_append _ xs ys, ?_, ?_⟩
  · intro out
    unfold renderFile renderSkus renderAssignment
    constructor
    · intro h
      cases hb : renderEach (renderSku wide location) skus with
      | error e => simp [hb] at h
      | ok body =>
        simp only [hb] at h
        obtain ⟨literals, hl, rfl⟩ := (renderEach_ok_iff _ _ _).1 hb
        exact ⟨literals, hl, (Except.ok.inj h).symm⟩
    · rintro ⟨literals, hl, rfl⟩
      have hb := (renderEach_ok_iff (renderSku wide location) skus _).2 ⟨literals, hl, rfl⟩
      simp only [hb]
  · intro hall
    have hb := (renderEach_total (renderSku wide location) skus).2
      (fun sku hsku => (renderSku_total wide location sku).2 (hall sku hsku))
    obtain ⟨body, hb⟩ := hb
    unfold renderFile renderSkus
    rw [hb]
    exact ⟨_, rfl⟩

/-- C10. In the rendered literal the `Locations` list is the one-element list
holding the region argument and every location-info entry has the region
argument as its `Location`; replacing the record's own locations, or the
location of any of its location-info entries, leaves the rendered text
unchanged. -/
theorem locations_from_region (wide : Char → Bool) (location : String) (sku : ResourceSKU) :
    (∀ out, renderSku wide location sku = .ok out →
      ∃ restrictions capabilities entries,
        renderRestrictions wide sku.Restrictions = .ok restrictions ∧
        renderCapabilities wide sku.Capabilities = .ok capabilities ∧
        out = "\t\x7b\n" ++ renderScalars wide sku ++
          renderAPIVersions wide sku.APIVersions ++ renderCapacity sku.Capacity ++
          renderCosts wide sku.Costs ++ restrictions ++ capabilities ++
          ("\t\tLocations: &[]string\x7b" ++ Quote wide location ++ "\x7d,\n") ++
          ("\t\tLocationInfo: &[]compute.ResourceSkuLocationInfo\x7b" ++
            joinMap id entries ++ "\t\t\t\x7d,\n") ++ "\t\x7d,\n" ++ "\x7d,\n" ∧
        List.Forall₂
          (fun li entry =>
            ∃ zones, sortZones li.Zones = .ok zones ∧
              entry = "\t\t\t\x7bLocation: lo.ToPtr(" ++ Quote wide location ++ ")," ++
                "\t\t\tZones: &[]string\x7b\n" ++ joinMap (renderZone wide) zones ++
                "\t\t\t\x7d,\n")
          sku.LocationInfo entries) ∧
    (∀ (locations : List (Option String)) (f : ResourceSKULocationInfo → Option String),
      renderSku wide location
        { sku with
          Locations := locations
          LocationInfo := sku.LocationInfo.map (fun li => { li with Location := f li }) } =
      renderSku wide location sku) ∧
    (Renderable sku → ∃ out, renderSku wide location sku = .ok out) := by
  refine ⟨?_, ?_, (renderSku_total wide location sku).2⟩
  · intro out h
    obtain ⟨restrictions, capabilities, entries, hr, hc, hentries, hout⟩ :=
      renderSku_ok wide location sku out h
    refine ⟨restrictions, capabilities, entries, hr, hc, hout, ?_⟩
    refine hentries.imp (fun li entry he => ?_)
    unfold renderLocationInfo at he
    cases hs : sortZones li.Zones with
    | error e => simp [hs] at he
    | ok zones =>
      simp only [hs] at he
      exact ⟨zones, rfl, (Except.ok.inj he).symm⟩
  · intro locations f
    have hl : renderLocationInfos wide location
        (sku.LocationInfo.map (fun li => { li with Location := f li })) =
        renderLocationInfos wide location sku.LocationInfo := by
      unfold renderLocationInfos
      rw [renderEach_map]
      rfl
    simp only [renderSku, hl]
    rfl

theorem locations_from_region_witness :
    ∃ out, renderSku (fun _ => true) "eastus"
      (sampleSku (some "Standard_D2s_v3") [some "1"]) = .ok out :=
  (locations_from_region (fun _ => true) "eastus"
    (sampleSku (some "Standard_D2s_v3") [some "1"])).2.2 (by simp [Renderable, sampleSku])

/-- C5, the failing input. A restriction entry with no affected value is rendered
without any `Values` field, while its restriction info is rendered with its two
empty lists. -/
theorem values_field_omitted :
    ∃ out,
      renderSku (fun _ => true) "eastus" (sampleRestrictedSku []) = .ok out ∧
      ¬ ("Values".data <:+: out.data) ∧
      "RestrictionInfo: &compute.ResourceSkuRestrictionInfo\x7b\n\t\t\t\t\tLocations: &[]string\x7b\n\t\t\t\t\t\x7d,\n".data
        <:+: out.data := by
  refine ⟨_, rfl, ?_, ?_⟩ <;> decide!

/-- The collections that are rendered as an empty list when empty: API versions,
costs, restrictions, capabilities, location-info entries, and the locations and
zones of a restriction info. -/
theorem empty_collections_rendered (wide : Char → Bool) (location : String) :
    renderAPIVersions wide [] = "\t\tAPIVersions: &[]string\x7b\n\t\t\x7d,\n" ∧
    renderCosts wide [] = "\t\tCosts: &[]compute.ResourceSkuCosts\x7b\t\t\x7d,\n" ∧
    renderRestrictions wide [] =
      .ok "\t\tRestrictions: &[]compute.ResourceSkuRestrictions\x7b\n\t\t\x7d,\n" ∧
    renderCapabilities wide [] =
      .ok "\t\tCapabilities: &[]compute.ResourceSkuCapabilities\x7b\n\t\t\x7d,\n" ∧
    renderLocationInfos wide location [] =
      .ok "\t\tLocationInfo: &[]compute.ResourceSkuLocationInfo\x7b\t\t\t\x7d,\n" := by
  refine ⟨rfl, rfl, rfl, rfl, rfl⟩

/-- C6, counterexample. A record without a capacity range is rendered with no
`Capacity` field at all. -/
theorem capacity_absent_omitted :
    ∃ out,
      renderSku (fun _ => true) "eastus" (sampleSku (some "Standard_D2s_v3") []) = .ok out ∧
      ¬ ("Capacity".data <:+: out.data) := by
  refine ⟨_, rfl, ?_⟩
  decide!

/-- C6, amended. The literal of every record starts with the six string
attributes, an absent one rendered as `""`, then the API versions; a capacity
range that is present follows with its minimum, maximum and default, an absent
number rendered as `0`; a capacity range that is absent is not rendered, the
`Costs` field following the API versions directly. -/
theorem absent_fields_render_zero (wide : Char → Bool) (location : String) (sku : ResourceSKU) :
    (∀ out, renderSku wide location sku = .ok out →
      ∃ rest,
        out = "\t\x7b\n" ++
          "\t\tName:         lo.ToPtr(" ++ Quote wide (sku.Name.getD "") ++ "),\n" ++
          "\t\tTier:         lo.ToPtr(" ++ Quote wide (sku.Tier.getD "") ++ "),\n" ++
          "\t\tKind:         lo.ToPtr(" ++ Quote wide (sku.Kind.getD "") ++ "),\n" ++
          "\t\tSize:         lo.ToPtr(" ++ Quote wide (sku.Size.getD "") ++ "),\n" ++
          "\t\tFamily:       lo.ToPtr(" ++ Quote wide (sku.Family.getD "") ++ "),\n" ++
          "\t\tResourceType: lo.ToPtr(" ++ Quote wide (sku.ResourceType.getD "") ++ "),\n" ++
          renderAPIVersions wide sku.APIVersions ++
          (match sku.Capacity with
            | none => ""
            | some c =>
              "\t\tCapacity: compute.ResourceSkuCapacity\x7b\n" ++
              "\t\t\tMinimum: lo.ToPtr(" ++ fmtD (c.Minimum.getD 0) ++ "),\n" ++
              "\t\t\tMaximum: lo.ToPtr(" ++ fmtD (c.Maximum.getD 0) ++ "),\n" ++
              "\t\t\tDefault: lo.ToPtr(" ++ fmtD (c.Default.getD 0) ++ "),\n" ++
              "\t\t\x7d,") ++
          "\t\tCosts: &[]compute.ResourceSkuCosts\x7b" ++ rest) ∧
    Quote wide "" = "\"\"" ∧ fmtD 0 = "0" ∧
    (Renderable sku → ∃ out, renderSku wide location sku = .ok out) := by
  refine ⟨?_, rfl, rfl, (renderSku_total wide location sku).2⟩
  intro out h
  obtain ⟨restrictions, capabilities, entries, _, _, _, hout⟩ :=
    renderSku_ok wide location sku out h
  have hget : ∀ (x : Option String), FromPtrOr x "" = x.getD "" := by
    intro x; cases x <;> rfl
  have hgetI : ∀ (x : Option Int), FromPtrOr x 0 = x.getD 0 := by
    intro x; cases x <;> rfl
  refine ⟨joinMap (renderCost wide) sku.Costs ++ "\t\t\x7d,\n" ++ restrictions ++
    capabilities ++ renderLocations wide location ++
    ("\t\tLocationInfo: &[]compute.ResourceSkuLocationInfo\x7b" ++ joinMap id entries ++
      "\t\t\t\x7d,\n") ++ "\t\x7d,\n" ++ "\x7d,\n", ?_⟩
  rw [hout]
  cases hc : sku.Capacity <;>
    simp only [renderScalars, renderCapacity, renderCosts, hget, hgetI, String.append_assoc]

theorem absent_fields_render_zero_witness :
    ∃ out, renderSku (fun _ => true) "eastus"
      (sampleCapacitySku { Minimum := none, Maximum := some 3, Default := none }) = .ok out :=
  (absent_fields_render_zero (fun _ => true) "eastus"
    (sampleCapacitySku { Minimum := none, Maximum := some 3, Default := none })).2.2.2
    (by simp [Renderable, sampleCapacitySku, sampleSku])

/-! ## Reading the literal back -/

theorem hexValue_lowerhex : ∀ d, d < 16 → hexValue (lowerhex d) = d := by decide

theorem hexValue_lowerhex_mod (n : Nat) : hexValue (lowerhex (n % 16)) = n % 16 :=
  hexValue_lowerhex _ (Nat.mod_lt _ (by decide))

theorem char_of_toNat_eq (r : Char) (n : Nat) (h : n = r.toNat) : Char.ofNat n = r := by
  rw [h]; exact Char.ofNat_toNat r

theorem char_toNat_lt (r : Char) : r.toNat < 1114112 := by
  have := r.valid
  simp only [UInt32.isValidChar, Nat.isValidChar] at this
  change r.val.toNat < 1114112
  omega

/-- The six shapes of an escaped rune. -/
theorem appendEscapedRune_shape (wide : Char → Bool) (r : Char) :
    (appendEscapedRune wide '\"' r = ['\\', r] ∧ (r = '\"' ∨ r = '\\')) ∨
    (appendEscapedRune wide '\"' r = [r] ∧ r ≠ '\"' ∧ r ≠ '\\' ∧ IsPrint wide r = true) ∨
    (∃ e n, appendEscapedRune wide '\"' r = ['\\', e] ∧ r.toNat = n ∧
      (e, n) ∈ [('a', 7), ('b', 8), ('f', 12), ('n', 10), ('r', 13), ('t', 9), ('v', 11)]) ∨
    (appendEscapedRune wide '\"' r =
        ['\\', 'x', lowerhex (r.toNat / 16 % 16), lowerhex (r.toNat % 16)] ∧
      r.toNat < 256) ∨
    (appendEscapedRune wide '\"' r =
        ['\\', 'u', lowerhex (r.toNat / 4096 % 16), lowerhex (r.toNat / 256 % 16),
          lowerhex (r.toNat / 16 % 16), lowerhex (r.toNat % 16)] ∧
      r.toNat < 65536) ∨
    appendEscapedRune wide '\"' r =
      ['\\', 'U', lowerhex (r.toNat / 268435456 % 16), lowerhex (r.toNat / 16777216 % 16),
        lowerhex (r.toNat / 1048576 % 16), lowerhex (r.toNat / 65536 % 16),
        lowerhex (r.toNat / 4096 % 16), lowerhex (r.toNat / 256 % 16),
        lowerhex (r.toNat / 16 % 16), lowerhex (r.toNat % 16)] := by
  by_cases h1 : r = '\"' ∨ r = '\\'
  · exact Or.inl ⟨by simp only [appendEscapedRune, if_pos h1], h1⟩
  by_cases h2 : IsPrint wide r = true
  · exact Or.inr (Or.inl ⟨by simp only [appendEscapedRune, if_neg h1, if_pos h2],
      fun h => h1 (Or.inl h), fun h => h1 (Or.inr h), h2⟩)
  by_cases h3 : r.toNat = 7
  · exact Or.inr (Or.inr (Or.inl ⟨'a', 7, by
      simp only [appendEscapedRune, if_neg h1, if_neg h2, if_pos h3], h3, by simp⟩))
  by_cases h4 : r.toNat = 8
  · exact Or.inr (Or.inr (Or.inl ⟨'b', 8, by
      simp only [appendEscapedRune, if_neg h1, if_neg h2, if_neg h3, if_pos h4], h4, by simp⟩))
  by_cases h5 : r.toNat = 12
  · exact Or.inr (Or.inr (Or.inl ⟨'f', 12, by
      simp only [appendEscapedRune, if_neg h1, if_neg h2, if_neg h3, if_neg h4, if_pos h5],
      h5, by simp⟩))
  by_cases h6 : r.toNat = 10
  · exact Or.inr (Or.inr (Or.inl ⟨'n', 10, by
      simp only [appendEscapedRune, if_neg h1, if_neg h2, if_neg h3, if_neg h4, if_neg h5,
        if_pos h6], h6, by simp⟩))
  by_cases h7 : r.toNat = 13
  · exact Or.inr (Or.inr (Or.inl ⟨'r', 13, by
      simp only [appendEscapedRune, if_neg h1, if_neg h2, if_neg h3, if_neg h4, if_neg h5,
        if_neg h6, if_pos h7], h7, by simp⟩))
  by_cases h8 : r.toNat = 9
  · exact Or.inr (Or.inr (Or.inl ⟨'t', 9, by
      simp only [appendEscapedRune, if_neg h1, if_neg h2, if_neg h3, if_neg h4, if_neg h5,
        if_neg h6, if_neg h7, if_pos h8], h8, by simp⟩))
  by_cases h9 : r.toNat = 11
  · exact Or.inr (Or.inr (Or.inl ⟨'v', 11, by
      simp only [appendEscapedRune, if_neg h1, if_neg h2, if_neg h3, if_neg h4, if_neg h5,
        if_neg h6, if_neg h7, if_neg h8, if_pos h9], h9, by simp⟩))
  by_cases h10 : r.toNat < 0x20 ∨ r.toNat = 0x7f
  · exact Or.inr (Or.inr (Or.inr (Or.inl ⟨by
      simp only [appendEscapedRune, if_neg h1, if_neg h2, if_neg h3, if_neg h4, if_neg h5,
        if_neg h6, if_neg h7, if_neg h8, if_neg h9, if_pos h10], by omega⟩)))
  by_cases h11 : r.toNat < 0x10000
  · exact Or.inr (Or.inr (Or.inr (Or.inr (Or.inl ⟨by
      simp only [appendEscapedRune, if_neg h1, if_neg h2, if_neg h3, if_neg h4, if_neg h5,
        if_neg h6, if_neg h7, if_neg h8, if_neg h9, if_neg h10, if_pos h11], h11⟩))))
  · exact Or.inr (Or.inr (Or.inr (Or.inr (Or.inr (by
      simp only [appendEscapedRune, if_neg h1, if_neg h2, if_neg h3, if_neg h4, if_neg h5,
        if_neg h6, if_neg h7, if_neg h8, if_neg h9, if_neg h10, if_neg h11])))))

theorem unescapeRune_appendEscapedRune (wide : Char → Bool) (r : Char) (rest : List Char) :
    unescapeRune (appendEscapedRune wide '\"' r ++ rest) = some (r, rest) := by
  have hlt := char_toNat_lt r
  rcases appendEscapedRune_shape wide r with ⟨hq, h⟩ | ⟨hq, _, hne, _⟩ | ⟨e, n, hq, hn, hmem⟩ |
    ⟨hq, hn⟩ | ⟨hq, hn⟩ | hq <;> rw [hq]
  · rcases h with h | h <;> subst h <;> simp [unescapeRune]
  · simp [unescapeRune, hne]
  · simp only [List.mem_cons, Prod.mk.injEq, List.mem_singleton, List.not_mem_nil,
      or_false] at hmem
    rcases hmem with ⟨rfl, rfl⟩ | ⟨rfl, rfl⟩ | ⟨rfl, rfl⟩ | ⟨rfl, rfl⟩ | ⟨rfl, rfl⟩ |
      ⟨rfl, rfl⟩ | ⟨rfl, rfl⟩ <;> simp [unescapeRune] <;> exact char_of_toNat_eq r _ hn.symm
  all_goals
    simp only [unescapeRune, List.cons_append, List.nil_append, hexValue_lowerhex_mod]
    simp
    apply char_of_toNat_eq
    omega

theorem appendEscapedRune_quote (wide : Char → Bool) :
    appendEscapedRune wide '\"' '\"' = ['\\', '\"'] := by
  simp [appendEscapedRune]

theorem escaped_head_ne_quote (wide : Char → Bool) (r : Char) (rest s : List Char) :
    appendEscapedRune wide '\"' r ++ rest ≠ '\"' :: s := by
  intro h
  have h1 := unescapeRune_appendEscapedRune wide r rest
  rw [h] at h1
  simp [unescapeRune] at h1
  obtain ⟨hr, _⟩ := h1
  subst hr
  rw [appendEscapedRune_quote] at h
  simp at h

theorem escapeRunes_cancel (wide : Char → Bool) (xs : List Char) :
    ∀ (ys s t : List Char),
      escapeRunes wide '\"' xs ++ '\"' :: s = escapeRunes wide '\"' ys ++ '\"' :: t →
      xs = ys ∧ s = t := by
  induction xs with
  | nil =>
    intro ys s t h
    cases ys with
    | nil => simpa [escapeRunes] using h
    | cons y ys =>
      simp only [escapeRunes, List.nil_append, List.append_assoc] at h
      exact absurd h.symm (escaped_head_ne_quote wide y _ _)
  | cons x xs ih =>
    intro ys s t h
    cases ys with
    | nil =>
      simp only [escapeRunes, List.nil_append, List.append_assoc] at h
      exact absurd h (escaped_head_ne_quote wide x _ _)
    | cons y ys =>
      simp only [escapeRunes, List.append_assoc] at h
      have h1 := unescapeRune_appendEscapedRune wide x (escapeRunes wide '\"' xs ++ '\"' :: s)
      rw [h, unescapeRune_appendEscapedRune] at h1
      simp only [Option.some.injEq, Prod.mk.injEq] at h1
      obtain ⟨hxy, hrest⟩ := h1
      obtain ⟨hxs, hst⟩ := ih ys s t hrest.symm
      exact ⟨by rw [hxy, hxs], hst⟩

/-- A quoted string can be read back, whatever follows it. -/
theorem Quote_cancel (wide : Char → Bool) (a b : String) (s t : List Char)
    (h : (Quote wide a).data ++ s = (Quote wide b).data ++ t) : a = b ∧ s = t := by
  simp only [Quote, List.cons_append, List.append_assoc, List.cons.injEq, true_and,
    List.nil_append] at h
  obtain ⟨hd, hst⟩ := escapeRunes_cancel wide a.data b.data s t h
  exact ⟨String.ext hd, hst⟩

theorem lowerhex_ne_newline (d : Nat) : lowerhex d ≠ '\n' := by
  rcases Nat.lt_or_ge d 16 with h | h
  · interval_cases d <;> decide
  · unfold lowerhex
    rw [List.getD_eq_default _ _ (by simpa using h)]
    decide

theorem isPrint_ne_newline (wide : Char → Bool) (r : Char) (h : IsPrint wide r = true) :
    r ≠ '\n' := by
  rintro rfl
  simp [IsPrint] at h

theorem newline_ne_lowerhex (d : Nat) : ¬ '\n' = lowerhex d :=
  fun h => lowerhex_ne_newline d h.symm

theorem appendEscapedRune_no_newline (wide : Char → Bool) (r : Char) :
    '\n' ∉ appendEscapedRune wide '\"' r := by
  rcases appendEscapedRune_shape wide r with ⟨hq, h⟩ | ⟨hq, _, _, hp⟩ | ⟨e, n, hq, _, hmem⟩ |
    ⟨hq, _⟩ | ⟨hq, _⟩ | hq <;> rw [hq]
  · rcases h with h | h <;> subst h <;> decide
  · simpa using (isPrint_ne_newline wide _ hp).symm
  · simp only [List.mem_cons, Prod.mk.injEq, List.mem_singleton, List.not_mem_nil,
      or_false] at hmem
    rcases hmem with ⟨rfl, _⟩ | ⟨rfl, _⟩ | ⟨rfl, _⟩ | ⟨rfl, _⟩ | ⟨rfl, _⟩ |
      ⟨rfl, _⟩ | ⟨rfl, _⟩ <;> decide
  all_goals simp [newline_ne_lowerhex]

theorem escapeRunes_no_newline (wide : Char → Bool) (xs : List Char) :
    '\n' ∉ escapeRunes wide '\"' xs := by
  induction xs with
  | nil => simp [escapeRunes]
  | cons x xs ih =>
    simp only [escapeRunes, List.mem_append, not_or]
    exact ⟨appendEscapedRune_no_newline wide x, ih⟩

theorem markerScan_append (s : Fin 5) (a b : List Char) :
    markerScan s (a ++ b) = markerScan (markerScan s a) b := by
  simp [markerScan, List.foldl_append]

theorem markerScan_found (l : List Char) : markerScan 4 l = 4 := by
  induction l with
  | nil => rfl
  | cons c l ih =>
    have : markerStep 4 c = 4 := by simp [markerStep]
    simpa [markerScan, this] using ih

theorem markerScan_marker : ∀ s : Fin 5, markerScan s ['\n', '\t', '\t', 'R'] = 4 := by
  decide

theorem markerScan_of_infix (l : List Char) (h : ['\n', '\t', '\t', 'R'] <:+: l) (s : Fin 5) :
    markerScan s l = 4 := by
  obtain ⟨a, b, rfl⟩ := h
  rw [markerScan_append, markerScan_append, markerScan_marker, markerScan_found]

theorem markerScan_zero (l : List Char) (h : '\n' ∉ l) : markerScan 0 l = 0 := by
  induction l with
  | nil => rfl
  | cons c l ih =>
    simp only [List.mem_cons, not_or] at h
    have hc : markerStep 0 c = 0 := by
      have hne : c ≠ '\n' := fun e => h.1 e.symm
      simp [markerStep, hne]
    have := ih h.2
    simpa [markerScan, hc] using this

theorem markerFree_append (a b : String) (ha : MarkerFree a) (hb : MarkerFree b) :
    MarkerFree (a ++ b) := by
  intro s hs
  rw [String.data_append, markerScan_append]
  exact hb _ (ha s hs)

theorem markerFree_joinMap {α : Type} (f : α → String) (l : List α)
    (h : ∀ x ∈ l, MarkerFree (f x)) : MarkerFree (joinMap f l) := by
  induction l with
  | nil => intro s hs; simpa [joinMap, markerScan] using hs
  | cons x l ih =>
    exact markerFree_append _ _ (h x (List.mem_cons_self _ _))
      (ih (fun y hy => h y (List.mem_cons_of_mem _ hy)))

theorem markerFree_Quote (wide : Char → Bool) (x : String) : MarkerFree (Quote wide x) := by
  intro s hs
  have h1 : markerStep s '\"' = 0 := by
    simp [markerStep, hs]
  have h2 : markerStep 0 '\"' = 0 := by decide
  have hq : (Quote wide x).data = ['\"'] ++ (escapeRunes wide '\"' x.data ++ ['\"']) := rfl
  rw [hq, markerScan_append, markerScan_append]
  have h3 : markerScan s ['\"'] = 0 := by simpa [markerScan] using h1
  rw [h3, markerScan_zero _ (escapeRunes_no_newline wide x.data)]
  have h4 : markerScan 0 ['\"'] = 0 := by simpa [markerScan] using h2
  rw [h4]
  decide

/-- Where the text `"\n\t\tR"` occurs for the last time, the two sides of it are
determined by the whole text. -/
theorem marker_split_unique (P P' S S' : List Char)
    (h : P ++ (['\n', '\t', '\t', 'R'] ++ S) = P' ++ (['\n', '\t', '\t', 'R'] ++ S'))
    (hS : markerScan 0 (['\t', '\t', 'R'] ++ S) ≠ 4)
    (hS' : markerScan 0 (['\t', '\t', 'R'] ++ S') ≠ 4) : P = P' ∧ S = S' := by
  rcases List.append_eq_append_iff.mp h with ⟨a, hP, hK⟩ | ⟨a, hP, hK⟩
  · cases a with
    | nil =>
      simp only [List.append_nil] at hP
      simp only [List.nil_append] at hK
      exact ⟨hP.symm, List.append_cancel_left hK⟩
    | cons c a =>
      exfalso
      apply hS
      apply markerScan_of_infix
      simp only [List.cons_append, List.cons.injEq, List.nil_append] at hK
      exact ⟨a, S', by simpa using hK.2.symm⟩
  · cases a with
    | nil =>
      simp only [List.append_nil] at hP
      simp only [List.nil_append] at hK
      exact ⟨hP, (List.append_cancel_left hK).symm⟩
    | cons c a =>
      exfalso
      apply hS'
      apply markerScan_of_infix
      simp only [List.cons_append, List.cons.injEq, List.nil_append] at hK
      exact ⟨a, S, by simpa using hK.2.symm⟩

theorem digit_toNat : ∀ d, d < 10 → (Char.ofNat (48 + d)).toNat = 48 + d := by decide

theorem digitsValue_snoc (l : List Char) (c : Char) :
    digitsValue (l ++ [c]) = digitsValue l * 10 + (c.toNat - 48) := by
  simp [digitsValue, List.foldl_append]

theorem fmtDigits_value : ∀ fuel u, u < fuel → digitsValue (fmtDigits fuel u) = u := by
  intro fuel
  induction fuel with
  | zero => intro u h; omega
  | succ fuel ih =>
    intro u h
    unfold fmtDigits
    split
    · rename_i hu
      simp [digitsValue, digit_toNat u hu]
    · rename_i hu
      rw [digitsValue_snoc, ih (u / 10) (by omega), digit_toNat _ (Nat.mod_lt _ (by decide))]
      omega

theorem fmtDigits_digit : ∀ fuel u, ∀ c ∈ fmtDigits fuel u, 48 ≤ c.toNat ∧ c.toNat ≤ 57 := by
  intro fuel
  induction fuel with
  | zero => intro u c hc; cases hc
  | succ fuel ih =>
    intro u c hc
    unfold fmtDigits at hc
    split at hc
    · rename_i hu
      simp only [List.mem_singleton] at hc
      subst hc
      rw [digit_toNat u hu]
      omega
    · simp only [List.mem_append, List.mem_singleton] at hc
      rcases hc with hc | hc
      · exact ih _ c hc
      · subst hc
        rw [digit_toNat _ (Nat.mod_lt _ (by decide))]
        have := Nat.mod_lt u (show 10 > 0 by decide)
        omega

theorem fmtNat_injective (a b : Nat) (h : fmtNat a = fmtNat b) : a = b := by
  have h' : fmtDigits (a + 1) a = fmtDigits (b + 1) b := congrArg String.data h
  have ha := fmtDigits_value (a + 1) a (by omega)
  have hb := fmtDigits_value (b + 1) b (by omega)
  rw [h'] at ha
  omega

theorem fmtD_data_neg (v : Int) (h : v < 0) :
    (fmtD v).data = '-' :: fmtDigits (v.natAbs + 1) v.natAbs := by
  simp [fmtD, h, fmtNat]

theorem fmtD_data_nonneg (v : Int) (h : ¬ v < 0) :
    (fmtD v).data = fmtDigits (v.toNat + 1) v.toNat := by
  simp [fmtD, h, fmtNat]

theorem fmtD_injective (a b : Int) (h : fmtD a = fmtD b) : a = b := by
  have hd := congrArg String.data h
  by_cases ha : a < 0 <;> by_cases hb : b < 0
  · rw [fmtD_data_neg a ha, fmtD_data_neg b hb] at hd
    have := fmtNat_injective a.natAbs b.natAbs (String.ext (List.cons.inj hd).2)
    omega
  · rw [fmtD_data_neg a ha, fmtD_data_nonneg b hb] at hd
    have hm : '-' ∈ fmtDigits (b.toNat + 1) b.toNat := by rw [← hd]; simp
    have := fmtDigits_digit _ _ _ hm
    exact absurd this (by decide)
  · rw [fmtD_data_nonneg a ha, fmtD_data_neg b hb] at hd
    have hm : '-' ∈ fmtDigits (a.toNat + 1) a.toNat := by rw [hd]; simp
    have := fmtDigits_digit _ _ _ hm
    exact absurd this (by decide)
  · rw [fmtD_data_nonneg a ha, fmtD_data_nonneg b hb] at hd
    have := fmtNat_injective a.toNat b.toNat (String.ext hd)
    omega

theorem fmtD_no_paren (v : Int) : ')' ∉ (fmtD v).data := by
  intro hm
  by_cases hv : v < 0
  · rw [fmtD_data_neg v hv] at hm
    rcases List.mem_cons.mp hm with h | h
    · exact absurd h (by decide)
    · exact absurd (fmtDigits_digit _ _ _ h) (by decide)
  · rw [fmtD_data_nonneg v hv] at hm
    exact absurd (fmtDigits_digit _ _ _ hm) (by decide)

theorem delimited_cancel (d : Char) (xs : List Char) :
    ∀ (ys s t : List Char), d ∉ xs → d ∉ ys → xs ++ d :: s = ys ++ d :: t →
      xs = ys ∧ s = t := by
  induction xs with
  | nil =>
    intro ys s t _ hy h
    cases ys with
    | nil => simpa using h
    | cons y ys =>
      simp only [List.nil_append, List.cons_append, List.cons.injEq] at h
      exact absurd (h.1 ▸ List.mem_cons_self _ _) hy
  | cons x xs ih =>
    intro ys s t hx hy h
    cases ys with
    | nil =>
      simp only [List.nil_append, List.cons_append, List.cons.injEq] at h
      exact absurd (h.1 ▸ List.mem_cons_self _ _) hx
    | cons y ys =>
      simp only [List.cons_append, List.cons.injEq] at h
      obtain ⟨h1, h2⟩ := ih ys s t (fun hm => hx (List.mem_cons_of_mem _ hm))
        (fun hm => hy (List.mem_cons_of_mem _ hm)) h.2
      exact ⟨by rw [h.1, h1], h2⟩

/-- A number written with `%d` and followed by `),` can be read back. -/
theorem fmtD_cancel (a b : Int) (s t : List Char)
    (h : (fmtD a).data ++ ("),\n".data ++ s) = (fmtD b).data ++ ("),\n".data ++ t)) :
    a = b ∧ s = t := by
  have h' : (fmtD a).data ++ ')' :: (",\n".data ++ s) =
      (fmtD b).data ++ ')' :: (",\n".data ++ t) := h
  obtain ⟨h1, h2⟩ := delimited_cancel ')' _ _ _ _ (fmtD_no_paren a) (fmtD_no_paren b) h'
  exact ⟨fmtD_injective a b (String.ext h1), List.append_cancel_left h2⟩

theorem renderEach_text {α : Type} (f : α → Except String String) (xs : List α) :
    ∀ body, renderEach f xs = .ok body →
      body = joinMap (fun x => textOf (f x)) xs ∧ ∀ x ∈ xs, ∃ part, f x = .ok part := by
  induction xs with
  | nil =>
    intro body h
    exact ⟨(Except.ok.inj h).symm, fun x hx => by cases hx⟩
  | cons x rest ih =>
    intro body h
    simp only [renderEach] at h
    cases hx : f x with
    | error e => simp [hx] at h
    | ok a =>
      cases hr : renderEach f rest with
      | error e => simp [hx, hr] at h
      | ok b =>
        simp only [hx, hr] at h
        obtain ⟨hb, hall⟩ := ih b hr
        refine ⟨?_, ?_⟩
        · rw [← Except.ok.inj h, hb]
          simp [joinMap, hx, textOf]
        · intro y hy
          rcases List.mem_cons.mp hy with rfl | hy
          · exact ⟨a, hx⟩
          · exact hall y hy

theorem joinMap_data_cons {α : Type} (f : α → String) (x : α) (xs : List α) :
    (joinMap f (x :: xs)).data = (f x).data ++ (joinMap f xs).data := by
  simp [joinMap]

/-- A rendered list can be read back when each element can and no element can
be taken for the text that closes the list. -/
theorem joinMap_cancel {α β : Type} (f : α → String) (v : α → β) (term : List Char)
    (P : α → Prop)
    (hf : ∀ x y s t, P x → P y → (f x).data ++ s = (f y).data ++ t → v x = v y ∧ s = t)
    (hterm : ∀ x s t, P x → (f x).data ++ s ≠ term ++ t) :
    ∀ (xs ys : List α) (s t : List Char), (∀ x ∈ xs, P x) → (∀ y ∈ ys, P y) →
      (joinMap f xs).data ++ (term ++ s) = (joinMap f ys).data ++ (term ++ t) →
      xs.map v = ys.map v ∧ s = t := by
  intro xs
  induction xs with
  | nil =>
    intro ys s t _ hys h
    cases ys with
    | nil => exact ⟨rfl, by simpa [joinMap] using h⟩
    | cons y ys =>
      rw [joinMap_data_cons, List.append_assoc] at h
      have h' : term ++ s = (f y).data ++ ((joinMap f ys).data ++ (term ++ t)) := by
        simpa [joinMap] using h
      exact absurd h'.symm (hterm y _ _ (hys y (List.mem_cons_self _ _)))
  | cons x xs ih =>
    intro ys s t hxs hys h
    cases ys with
    | nil =>
      rw [joinMap_data_cons, List.append_assoc] at h
      have h' : (f x).data ++ ((joinMap f xs).data ++ (term ++ s)) = term ++ t := by
        simpa [joinMap] using h
      exact absurd h' (hterm x _ _ (hxs x (List.mem_cons_self _ _)))
    | cons y ys =>
      rw [joinMap_data_cons, joinMap_data_cons, List.append_assoc, List.append_assoc] at h
      obtain ⟨hv, hrest⟩ := hf x y _ _ (hxs x (List.mem_cons_self _ _))
        (hys y (List.mem_cons_self _ _)) h
      obtain ⟨hvs, hst⟩ := ih ys s t (fun z hz => hxs z (List.mem_cons_of_mem _ hz))
        (fun z hz => hys z (List.mem_cons_of_mem _ hz)) hrest
      exact ⟨by simp [hv, hvs], hst⟩

theorem renderScalars_cancel (wide : Char → Bool) (a b : ResourceSKU) (s t : List Char)
    (h : (renderScalars wide a).data ++ s = (renderScalars wide b).data ++ t) :
    (FromPtrOr a.Name "" = FromPtrOr b.Name "" ∧ FromPtrOr a.Tier "" = FromPtrOr b.Tier "" ∧
      FromPtrOr a.Kind "" = FromPtrOr b.Kind "" ∧ FromPtrOr a.Size "" = FromPtrOr b.Size "" ∧
      FromPtrOr a.Family "" = FromPtrOr b.Family "" ∧
      FromPtrOr a.ResourceType "" = FromPtrOr b.ResourceType "") ∧ s = t := by
  simp only [renderScalars, String.data_append, List.append_assoc] at h
  replace h := List.append_cancel_left h
  obtain ⟨h1, h⟩ := Quote_cancel _ _ _ _ _ h
  replace h := List.append_cancel_left h
  replace h := List.append_cancel_left h
  obtain ⟨h2, h⟩ := Quote_cancel _ _ _ _ _ h
  replace h := List.append_cancel_left h
  replace h := List.append_cancel_left h
  obtain ⟨h3, h⟩ := Quote_cancel _ _ _ _ _ h
  replace h := List.append_cancel_left h
  replace h := List.append_cancel_left h
  obtain ⟨h4, h⟩ := Quote_cancel _ _ _ _ _ h
  replace h := List.append_cancel_left h
  replace h := List.append_cancel_left h
  obtain ⟨h5, h⟩ := Quote_cancel _ _ _ _ _ h
  replace h := List.append_cancel_left h
  replace h := List.append_cancel_left h
  obtain ⟨h6, h⟩ := Quote_cancel _ _ _ _ _ h
  replace h := List.append_cancel_left h
  exact ⟨⟨h1, h2, h3, h4, h5, h6⟩, h⟩

theorem renderAPIVersion_cancel (wide : Char → Bool) (a b : Option String) (s t : List Char)
    (h : (renderAPIVersion wide a).data ++ s = (renderAPIVersion wide b).data ++ t) :
    FromPtrOr a "" = FromPtrOr b "" ∧ s = t := by
  simp only [renderAPIVersion, String.data_append, List.append_assoc] at h
  replace h := List.append_cancel_left h
  obtain ⟨h1, h⟩ := Quote_cancel _ _ _ _ _ h
  exact ⟨h1, List.append_cancel_left h⟩

theorem renderAPIVersions_cancel (wide : Char → Bool) (a b : List (Option String))
    (s t : List Char)
    (h : (renderAPIVersions wide a).data ++ s = (renderAPIVersions wide b).data ++ t) :
    a.map (fun v => FromPtrOr v "") = b.map (fun v => FromPtrOr v "") ∧ s = t := by
  simp only [renderAPIVersions, String.data_append, List.append_assoc] at h
  replace h := List.append_cancel_left h
  exact joinMap_cancel (renderAPIVersion wide) (fun v => FromPtrOr v "") _ (fun _ => True)
    (fun x y s t _ _ h => renderAPIVersion_cancel wide x y s t h)
    (fun x s t _ h => by simp [renderAPIVersion, String.data_append] at h)
    a b s t (fun _ _ => trivial) (fun _ _ => trivial) h

theorem renderCapacity_cancel (ca cb : Option ResourceSKUCapacity) (s t : List Char)
    (h : (renderCapacity ca).data ++ ("\t\tCosts: &[]compute.ResourceSkuCosts\x7b".data ++ s) =
      (renderCapacity cb).data ++ ("\t\tCosts: &[]compute.ResourceSkuCosts\x7b".data ++ t)) :
    ca.map capacityView = cb.map capacityView ∧ s = t := by
  cases ca with
  | none =>
    cases cb with
    | none => exact ⟨rfl, by simpa [renderCapacity] using h⟩
    | some b => simp [renderCapacity, String.data_append] at h
  | some a =>
    cases cb with
    | none => simp [renderCapacity, String.data_append] at h
    | some b =>
      simp only [renderCapacity, String.data_append, List.append_assoc] at h
      replace h := List.append_cancel_left h
      replace h := List.append_cancel_left h
      obtain ⟨h1, h⟩ := fmtD_cancel _ _ _ _ h
      replace h := List.append_cancel_left h
      obtain ⟨h2, h⟩ := fmtD_cancel _ _ _ _ h
      replace h := List.append_cancel_left h
      obtain ⟨h3, h⟩ := fmtD_cancel _ _ _ _ h
      replace h := List.append_cancel_left h
      replace h := List.append_cancel_left h
      exact ⟨by simp [capacityView, h1, h2, h3], h⟩

theorem renderValue_cancel (wide : Char → Bool) (a b : Option String) (s t : List Char)
    (h : (renderValue wide a).data ++ s = (renderValue wide b).data ++ t) :
    FromPtrOr a "" = FromPtrOr b "" ∧ s = t := by
  simp only [renderValue, String.data_append, List.append_assoc] at h
  replace h := List.append_cancel_left h
  obtain ⟨h1, h⟩ := Quote_cancel _ _ _ _ _ h
  exact ⟨h1, List.append_cancel_left h⟩

theorem renderInfoString_cancel (wide : Char → Bool) (a b : Option String) (s t : List Char)
    (h : (renderInfoString wide a).data ++ s = (renderInfoString wide b).data ++ t) :
    FromPtr a = FromPtr b ∧ s = t := by
  simp only [renderInfoString, String.data_append, List.append_assoc] at h
  replace h := List.append_cancel_left h
  obtain ⟨h1, h⟩ := Quote_cancel _ _ _ _ _ h
  exact ⟨h1, List.append_cancel_left h⟩

theorem renderZone_cancel (wide : Char → Bool) (a b : Option String) (s t : List Char)
    (h : (renderZone wide a).data ++ s = (renderZone wide b).data ++ t) :
    FromPtr a = FromPtr b ∧ s = t := by
  simp only [renderZone, String.data_append, List.append_assoc] at h
  replace h := List.append_cancel_left h
  obtain ⟨h1, h⟩ := Quote_cancel _ _ _ _ _ h
  exact ⟨h1, List.append_cancel_left h⟩

theorem infoStrings_cancel (wide : Char → Bool) (a b : List (Option String)) (s t : List Char)
    (h : (joinMap (renderInfoString wide) a).data ++ ("\t\t\t\t\t\x7d,\n".data ++ s) =
      (joinMap (renderInfoString wide) b).data ++ ("\t\t\t\t\t\x7d,\n".data ++ t)) :
    a.map FromPtr = b.map FromPtr ∧ s = t :=
  joinMap_cancel (renderInfoString wide) FromPtr _ (fun _ => True)
    (fun x y s t _ _ h => renderInfoString_cancel wide x y s t h)
    (fun x s t _ h => by simp [renderInfoString, String.data_append] at h)
    a b s t (fun _ _ => trivial) (fun _ _ => trivial) h

theorem restriction_cancel (wide : Char → Bool) (a b : ResourceSKURestrictions)
    (s t : List Char) (ha : a.RestrictionInfo ≠ none) (hb : b.RestrictionInfo ≠ none)
    (h : (textOf (renderRestriction wide a)).data ++ s =
      (textOf (renderRestriction wide b)).data ++ t) :
    restrictionView a = restrictionView b ∧ s = t := by
  cases hia : a.RestrictionInfo with
  | none => exact absurd hia ha
  | some ia =>
    cases hib : b.RestrictionInfo with
    | none => exact absurd hib hb
    | some ib =>
      simp only [renderRestriction, deref, hia, hib, textOf, String.data_append,
        List.append_assoc] at h
      replace h := List.append_cancel_left h
      replace h := List.append_cancel_left h
      obtain ⟨h1, h⟩ := Quote_cancel _ _ _ _ _ h
      replace h := List.append_cancel_left h
      obtain ⟨h2, h⟩ := joinMap_cancel (renderValue wide) (fun v => FromPtrOr v "") _
        (fun _ => True) (fun x y s t _ _ h => renderValue_cancel wide x y s t h)
        (fun x s t _ h => by simp [renderValue, String.data_append] at h)
        a.Values b.Values _ _ (fun _ _ => trivial) (fun _ _ => trivial) h
      replace h := List.append_cancel_left h
      replace h := List.append_cancel_left h
      obtain ⟨h3, h⟩ := infoStrings_cancel wide _ _ _ _ h
      replace h := List.append_cancel_left h
      obtain ⟨h4, h⟩ := infoStrings_cancel wide _ _ _ _ h
      replace h := List.append_cancel_left h
      replace h := List.append_cancel_left h
      obtain ⟨h5, h⟩ := Quote_cancel _ _ _ _ _ h
      replace h := List.append_cancel_left h
      replace h := List.append_cancel_left h
      exact ⟨by simp [restrictionView, hia, hib, h1, h2, h3, h4, h5], h⟩

theorem capability_cancel (wide : Char → Bool) (a b : ResourceSKUCapabilities)
    (s t : List Char) (ha : a.Name ≠ none ∧ a.Value ≠ none) (hb : b.Name ≠ none ∧ b.Value ≠ none)
    (h : (textOf (renderCapability wide a)).data ++ s =
      (textOf (renderCapability wide b)).data ++ t) :
    a = b ∧ s = t := by
  obtain ⟨an, av⟩ := a
  obtain ⟨bn, bv⟩ := b
  cases an with
  | none => exact absurd rfl ha.1
  | some an =>
  cases av with
  | none => exact absurd rfl ha.2
  | some av =>
  cases bn with
  | none => exact absurd rfl hb.1
  | some bn =>
  cases bv with
  | none => exact absurd rfl hb.2
  | some bv =>
    simp only [renderCapability, deref, textOf, String.data_append, List.append_assoc] at h
    replace h := List.append_cancel_left h
    obtain ⟨h1, h⟩ := Quote_cancel _ _ _ _ _ h
    replace h := List.append_cancel_left h
    obtain ⟨h2, h⟩ := Quote_cancel _ _ _ _ _ h
    replace h := List.append_cancel_left h
    exact ⟨by rw [h1, h2], h⟩

theorem locationInfo_cancel (wide : Char → Bool) (location : String)
    (a b : ResourceSKULocationInfo) (s t : List Char)
    (ha : ∃ part, renderLocationInfo wide location a = .ok part)
    (hb : ∃ part, renderLocationInfo wide location b = .ok part)
    (h : (textOf (renderLocationInfo wide location a)).data ++ s =
      (textOf (renderLocationInfo wide location b)).data ++ t) :
    zoneView a = zoneView b ∧ s = t := by
  obtain ⟨pa, ha⟩ := ha
  obtain ⟨pb, hb⟩ := hb
  unfold renderLocationInfo at ha hb h
  cases hza : sortZones a.Zones with
  | error e => simp [hza] at ha
  | ok za =>
    cases hzb : sortZones b.Zones with
    | error e => simp [hzb] at hb
    | ok zb =>
      simp only [hza, hzb, textOf, String.data_append, List.append_assoc] at h
      replace h := List.append_cancel_left h
      replace h := List.append_cancel_left h
      replace h := List.append_cancel_left h
      replace h := List.append_cancel_left h
      obtain ⟨h1, h⟩ := joinMap_cancel (renderZone wide) FromPtr _
        (fun _ => True) (fun x y s t _ _ h => renderZone_cancel wide x y s t h)
        (fun x s t _ h => by simp [renderZone, String.data_append] at h)
        za zb _ _ (fun _ _ => trivial) (fun _ _ => trivial) h
      exact ⟨by simp [zoneView, hza, hzb, h1], h⟩

theorem markerFree_renderValue (wide : Char → Bool) (v : Option String) :
    MarkerFree (renderValue wide v) := by
  unfold renderValue
  refine markerFree_append _ _ ?_ (by decide!)
  exact markerFree_append _ _ (by decide!) (markerFree_Quote _ _)

theorem markerFree_renderInfoString (wide : Char → Bool) (v : Option String) :
    MarkerFree (renderInfoString wide v) := by
  unfold renderInfoString
  refine markerFree_append _ _ ?_ (by decide!)
  exact markerFree_append _ _ (by decide!) (markerFree_Quote _ _)

theorem markerFree_renderZone (wide : Char → Bool) (v : Option String) :
    MarkerFree (renderZone wide v) := by
  unfold renderZone
  refine markerFree_append _ _ ?_ (by decide!)
  exact markerFree_append _ _ (by decide!) (markerFree_Quote _ _)

theorem markerFree_restriction (wide : Char → Bool) (r : ResourceSKURestrictions) :
    MarkerFree (textOf (renderRestriction wide r)) := by
  unfold renderRestriction
  cases r.RestrictionInfo with
  | none => simp only [deref, textOf]; decide!
  | some info =>
    simp only [deref, textOf]
    refine markerFree_append _ _ ?_ (by decide!)
    refine markerFree_append _ _ ?_ (by decide!)
    refine markerFree_append _ _ ?_ (markerFree_Quote _ _)
    refine markerFree_append _ _ ?_ (by decide!)
    refine markerFree_append _ _ ?_ (by decide!)
    refine markerFree_append _ _ ?_ (by decide!)
    refine markerFree_append _ _ ?_ (markerFree_joinMap _ _ (fun x _ => markerFree_renderInfoString wide x))
    refine markerFree_append _ _ ?_ (by decide!)
    refine markerFree_append _ _ ?_ (by decide!)
    refine markerFree_append _ _ ?_ (markerFree_joinMap _ _ (fun x _ => markerFree_renderInfoString wide x))
    refine markerFree_append _ _ ?_ (by decide!)
    refine markerFree_append _ _ ?_ (by decide!)
    refine markerFree_append _ _ ?_ (by decide!)
    refine markerFree_append _ _ ?_ (markerFree_joinMap _ _ (fun x _ => markerFree_renderValue wide x))
    refine markerFree_append _ _ ?_ (by decide!)
    refine markerFree_append _ _ ?_ (markerFree_Quote _ _)
    exact markerFree_append _ _ (by decide!) (by decide!)

theorem markerFree_capability (wide : Char → Bool) (c : ResourceSKUCapabilities) :
    MarkerFree (textOf (renderCapability wide c)) := by
  unfold renderCapability
  cases c.Name with
  | none => simp only [deref, textOf]; decide!
  | some name =>
    cases c.Value with
    | none => simp only [deref, textOf]; decide!
    | some value =>
      simp only [deref, textOf]
      refine markerFree_append _ _ ?_ (by decide!)
      refine markerFree_append _ _ ?_ (markerFree_Quote _ _)
      refine markerFree_append _ _ ?_ (by decide!)
      exact markerFree_append _ _ (by decide!) (markerFree_Quote _ _)

theorem markerFree_locationInfo (wide : Char → Bool) (location : String)
    (li : ResourceSKULocationInfo) :
    MarkerFree (textOf (renderLocationInfo wide location li)) := by
  unfold renderLocationInfo
  cases sortZones li.Zones with
  | error e => simp only [textOf]; decide!
  | ok zones =>
    simp only [textOf]
    refine markerFree_append _ _ ?_ (by decide!)
    refine markerFree_append _ _ ?_ (markerFree_joinMap _ _ (fun x _ => markerFree_renderZone wide x))
    refine markerFree_append _ _ ?_ (by decide!)
    refine markerFree_append _ _ ?_ (by decide!)
    exact markerFree_append _ _ (by decide!) (markerFree_Quote _ _)

theorem markerFree_renderLocations (wide : Char → Bool) (location : String) :
    MarkerFree (renderLocations wide location) := by
  unfold renderLocations
  refine markerFree_append _ _ ?_ (by decide!)
  exact markerFree_append _ _ (by decide!) (markerFree_Quote _ _)

theorem markerFree_skuTail (wide : Char → Bool) (location : String) (sku : ResourceSKU) :
    MarkerFree (skuTail wide location sku) := by
  unfold skuTail
  refine markerFree_append _ _ ?_ (by decide!)
  refine markerFree_append _ _ ?_ (by decide!)
  refine markerFree_append _ _ ?_ (by decide!)
  refine markerFree_append _ _ ?_ (markerFree_joinMap _ _ (fun x _ => markerFree_locationInfo wide location x))
  refine markerFree_append _ _ ?_ (by decide!)
  refine markerFree_append _ _ ?_ (markerFree_renderLocations wide location)
  refine markerFree_append _ _ ?_ (by decide!)
  refine markerFree_append _ _ ?_ (markerFree_joinMap _ _ (fun x _ => markerFree_capability wide x))
  refine markerFree_append _ _ ?_ (by decide!)
  refine markerFree_append _ _ ?_ (by decide!)
  exact markerFree_append _ _ (by decide!) (markerFree_joinMap _ _ (fun x _ => markerFree_restriction wide x))

theorem literal_clash (p q : String) (x y : List Char) (i : Nat)
    (h : i < p.data.length ∧ i < q.data.length ∧ p.data[i]? ≠ q.data[i]?) :
    p.data ++ x ≠ q.data ++ y := by
  intro heq
  have := congrArg (fun l => l[i]?) heq
  simp only [List.getElem?_append_left h.1, List.getElem?_append_left h.2.1] at this
  exact h.2.2 this

theorem skuHead_cancel (wide : Char → Bool) (a b : ResourceSKU) (s t : List Char)
    (h : (skuHead wide a).data ++ s = (skuHead wide b).data ++ t) :
    ((FromPtrOr a.Name "" = FromPtrOr b.Name "" ∧ FromPtrOr a.Tier "" = FromPtrOr b.Tier "" ∧
      FromPtrOr a.Kind "" = FromPtrOr b.Kind "" ∧ FromPtrOr a.Size "" = FromPtrOr b.Size "" ∧
      FromPtrOr a.Family "" = FromPtrOr b.Family "" ∧
      FromPtrOr a.ResourceType "" = FromPtrOr b.ResourceType "") ∧
     a.APIVersions.map (fun v => FromPtrOr v "") = b.APIVersions.map (fun v => FromPtrOr v "") ∧
     a.Capacity.map capacityView = b.Capacity.map capacityView) ∧ s = t := by
  simp only [skuHead, String.data_append, List.append_assoc] at h
  replace h := List.append_cancel_left h
  obtain ⟨h1, h⟩ := renderScalars_cancel wide a b _ _ h
  obtain ⟨h2, h⟩ := renderAPIVersions_cancel wide _ _ _ _ h
  obtain ⟨h3, h⟩ := renderCapacity_cancel _ _ _ _ h
  exact ⟨⟨h1, h2, h3⟩, h⟩

theorem map_eq_forall₂ {α β : Type} (v : α → β) (P : α → Prop) (R : α → α → Prop)
    (hR : ∀ x y, P x → P y → v x = v y → R x y) :
    ∀ xs ys : List α, (∀ x ∈ xs, P x) → (∀ y ∈ ys, P y) → xs.map v = ys.map v →
      List.Forall₂ R xs ys := by
  intro xs
  induction xs with
  | nil =>
    intro ys _ _ h
    cases ys with
    | nil => exact List.Forall₂.nil
    | cons y ys => simp at h
  | cons x xs ih =>
    intro ys hxs hys h
    cases ys with
    | nil => simp at h
    | cons y ys =>
      simp only [List.map_cons, List.cons.injEq] at h
      exact List.Forall₂.cons
        (hR x y (hxs x (List.mem_cons_self _ _)) (hys y (List.mem_cons_self _ _)) h.1)
        (ih ys (fun z hz => hxs z (List.mem_cons_of_mem _ hz))
          (fun z hz => hys z (List.mem_cons_of_mem _ hz)) h.2)

theorem zoneView_perm (wide : Char → Bool) (location : String) (a b : ResourceSKULocationInfo)
    (ha : ∃ part, renderLocationInfo wide location a = .ok part)
    (hb : ∃ part, renderLocationInfo wide location b = .ok part)
    (h : zoneView a = zoneView b) : (a.Zones.map FromPtr).Perm (b.Zones.map FromPtr) := by
  obtain ⟨pa, ha⟩ := ha
  obtain ⟨pb, hb⟩ := hb
  unfold renderLocationInfo at ha hb
  cases hza : sortZones a.Zones with
  | error e => simp [hza] at ha
  | ok za =>
    cases hzb : sortZones b.Zones with
    | error e => simp [hzb] at hb
    | ok zb =>
      simp only [zoneView, hza, hzb] at h
      have h1 := (sortZones_ok _ _ hza).2
      have h2 := (sortZones_ok _ _ hzb).2
      exact h1.symm.trans (h ▸ h2)

theorem skuTail_cancel (wide : Char → Bool) (location : String) (a b : ResourceSKU)
    (ha : Renderable a) (hb : Renderable b)
    (h : (skuTail wide location a).data = (skuTail wide location b).data) :
    a.Restrictions.map restrictionView = b.Restrictions.map restrictionView ∧
    a.Capabilities = b.Capabilities ∧
    List.Forall₂ (fun x y => (x.Zones.map FromPtr).Perm (y.Zones.map FromPtr))
      a.LocationInfo b.LocationInfo := by
  have hla := fun li hli => (renderLocationInfo_total wide location li).2 (ha.2.2 li hli)
  have hlb := fun li hli => (renderLocationInfo_total wide location li).2 (hb.2.2 li hli)
  simp only [skuTail, String.data_append, List.append_assoc] at h
  replace h := List.append_cancel_left h
  obtain ⟨h1, h⟩ := joinMap_cancel (fun r => textOf (renderRestriction wide r)) restrictionView _
    (fun r => r.RestrictionInfo ≠ none)
    (fun x y s t hx hy h => restriction_cancel wide x y s t hx hy h)
    (fun x s t hx h => by
      cases hi : x.RestrictionInfo with
      | none => exact hx hi
      | some info =>
        simp only [renderRestriction, deref, hi, textOf, String.data_append,
          List.append_assoc] at h
        exact literal_clash "\t\t\t\x7b\n" "\t\t\x7d,\n" _ _ 2 (by decide) h)
    a.Restrictions b.Restrictions _ _ ha.1 hb.1 h
  replace h := List.append_cancel_left h
  obtain ⟨h2, h⟩ := joinMap_cancel (fun c => textOf (renderCapability wide c)) id _
    (fun c => c.Name ≠ none ∧ c.Value ≠ none)
    (fun x y s t hx hy h => capability_cancel wide x y s t hx hy h)
    (fun x s t hx h => by
      obtain ⟨xn, xv⟩ := x
      cases xn with
      | none => exact hx.1 rfl
      | some n =>
        cases xv with
        | none => exact hx.2 rfl
        | some v => simp [renderCapability, deref, textOf, String.data_append] at h)
    a.Capabilities b.Capabilities _ _ ha.2.1 hb.2.1 h
  replace h := List.append_cancel_left h
  replace h := List.append_cancel_left h
  have h' : (joinMap (fun li => textOf (renderLocationInfo wide location li)) a.LocationInfo).data ++
      ("\t\t\t\x7d,\n".data ++ ("\t\x7d,\n".data ++ "\x7d,\n".data)) =
      (joinMap (fun li => textOf (renderLocationInfo wide location li)) b.LocationInfo).data ++
      ("\t\t\t\x7d,\n".data ++ ("\t\x7d,\n".data ++ "\x7d,\n".data)) := h
  obtain ⟨h3, _⟩ := joinMap_cancel (fun li => textOf (renderLocationInfo wide location li))
    zoneView _ (fun li => ∃ part, renderLocationInfo wide location li = .ok part)
    (fun x y s t hx hy h => locationInfo_cancel wide location x y s t hx hy h)
    (fun x s t hx h => by
      obtain ⟨p, hp⟩ := hx
      unfold renderLocationInfo at hp h
      cases hz : sortZones x.Zones with
      | error e => simp [hz] at hp
      | ok zones => simp [hz, textOf, String.data_append] at h)
    a.LocationInfo b.LocationInfo _ _ hla hlb h'
  refine ⟨h1, by simpa using h2, ?_⟩
  exact map_eq_forall₂ zoneView _ _
    (fun x y hx hy hxy => zoneView_perm wide location x y hx hy hxy) _ _ hla hlb h3

theorem renderSku_data (wide : Char → Bool) (location : String) (sku : ResourceSKU)
    (out : String) (h : renderSku wide location sku = .ok out) :
    Renderable sku ∧
    out.data = (skuHead wide sku).data ++ ((joinMap (renderCost wide) sku.Costs).data ++
      ("\t\t\x7d,".data ++ (['\n', '\t', '\t', 'R'] ++ (skuTail wide location sku).data))) := by
  refine ⟨(renderSku_total wide location sku).1 ⟨out, h⟩, ?_⟩
  unfold renderSku renderRestrictions renderCapabilities renderLocationInfos at h
  cases hr : renderEach (renderRestriction wide) sku.Restrictions with
  | error e => simp [hr] at h
  | ok rs =>
    cases hc : renderEach (renderCapability wide) sku.Capabilities with
    | error e => simp [hr, hc] at h
    | ok cs =>
      cases hl : renderEach (renderLocationInfo wide location) sku.LocationInfo with
      | error e => simp [hr, hc, hl] at h
      | ok ls =>
        simp only [hr, hc, hl] at h
        rw [← Except.ok.inj h, (renderEach_text _ _ _ hr).1, (renderEach_text _ _ _ hc).1,
          (renderEach_text _ _ _ hl).1]
        simp only [skuHead, skuTail, renderCosts, String.data_append, List.append_assoc]
        rfl

/-- C3, amended. Two records whose literals, rendered for the same region,
coincide agree on every attribute the literal carries outside its cost entries:
the six string attributes and the API versions (absent read as `""`), the
presence of a capacity range and its three numbers (absent read as `0`), the
restriction entries with type, affected values, restriction-info locations and
zones and reason code, the capabilities, and the location-info entries with
their zones up to order. -/
theorem literal_determines_attributes (wide : Char → Bool) (location : String)
    (a b : ResourceSKU) (out : String)
    (ha : renderSku wide location a = .ok out) (hb : renderSku wide location b = .ok out) :
    FromPtrOr a.Name "" = FromPtrOr b.Name "" ∧ FromPtrOr a.Tier "" = FromPtrOr b.Tier "" ∧
    FromPtrOr a.Kind "" = FromPtrOr b.Kind "" ∧ FromPtrOr a.Size "" = FromPtrOr b.Size "" ∧
    FromPtrOr a.Family "" = FromPtrOr b.Family "" ∧
    FromPtrOr a.ResourceType "" = FromPtrOr b.ResourceType "" ∧
    a.APIVersions.map (fun v => FromPtrOr v "") = b.APIVersions.map (fun v => FromPtrOr v "") ∧
    a.Capacity.map capacityView = b.Capacity.map capacityView ∧
    a.Restrictions.map restrictionView = b.Restrictions.map restrictionView ∧
    a.Capabilities = b.Capabilities ∧
    List.Forall₂ (fun x y => (x.Zones.map FromPtr).Perm (y.Zones.map FromPtr))
      a.LocationInfo b.LocationInfo := by
  obtain ⟨hRa, hda⟩ := renderSku_data wide location a out ha
  obtain ⟨hRb, hdb⟩ := renderSku_data wide location b out hb
  have h := hda.symm.trans hdb
  obtain ⟨⟨⟨h1, h2, h3, h4, h5, h6⟩, hapi, hcap⟩, h⟩ := skuHead_cancel wide a b _ _ h
  rw [← List.append_assoc, ← List.append_assoc (joinMap (renderCost wide) b.Costs).data] at h
  have hfree : ∀ sku : ResourceSKU,
      markerScan 0 (['\t', '\t', 'R'] ++ (skuTail wide location sku).data) ≠ 4 := by
    intro sku
    rw [markerScan_append]
    exact markerFree_skuTail wide location sku _ (by decide)
  obtain ⟨_, htail⟩ := marker_split_unique _ _ _ _ h (hfree a) (hfree b)
  obtain ⟨hr, hc, hl⟩ := skuTail_cancel wide location a b hRa hRb htail
  exact ⟨h1, h2, h3, h4, h5, h6, hapi, hcap, hr, hc, hl⟩

theorem literal_determines_attributes_witness :
    (sampleLocatedSku (some "westus")).Capabilities =
      (sampleLocatedSku (some "eastus2")).Capabilities :=
  (literal_determines_attributes (fun _ => true) "eastus" (sampleLocatedSku (some "westus"))
    (sampleLocatedSku (some "eastus2")) _ rfl rfl).2.2.2.2.2.2.2.2.2.1

/-- C3, counterexample. Two records that differ in the location of their
location-info entry are rendered to the same literal, and so are a record
without a name and a record whose name is the empty string: no parse of the
literal recovers the location, or tells an absent string from an empty one. -/
theorem literal_not_injective :
    sampleLocatedSku (some "westus") ≠ sampleLocatedSku (some "eastus2") ∧
    renderSku (fun _ => true) "eastus" (sampleLocatedSku (some "westus")) =
      renderSku (fun _ => true) "eastus" (sampleLocatedSku (some "eastus2")) ∧
    (∃ out, renderSku (fun _ => true) "eastus" (sampleLocatedSku (some "westus")) = .ok out) ∧
    sampleSku none [] ≠ sampleSku (some "") [] ∧
    renderSku (fun _ => true) "eastus" (sampleSku none []) =
      renderSku (fun _ => true) "eastus" (sampleSku (some "") []) := by
  refine ⟨by decide, rfl, ⟨_, rfl⟩, by decide, rfl⟩

theorem ok_of_textOf (r : Except String String) (text : String)
    (hok : r.isOk = true) (h : textOf r = text) : r = .ok text := by
  cases r with
  | error e => simp [Except.isOk, Except.toBool] at hok
  | ok t => simpa [textOf] using h

/-- C4. The text written for a record opens one brace per location-info entry
(line 157) and closes one after the loop over the entries (line 167), so its
braces balance only for a record with exactly one entry. For a record without
location-info entry the text closes one brace more than it opens: in the file
rendered for that record followed by a second one, the brace that ends the
first record's text closes the list opened by the assignment, and the text of
the second record follows the closed list. With two entries the text leaves a
brace open. The meter id of a cost entry is written as it is, without quotes. -/
theorem location_info_braces_unbalanced :
    renderSku (fun _ => true) "eastus" (sampleEntriesSku 0) =
      .ok ("\t\x7b\n\t\tName:         lo.ToPtr(\"Standard_D2s_v3\"),\n" ++
        "\t\tTier:         lo.ToPtr(\"\"),\n\t\tKind:         lo.ToPtr(\"\"),\n" ++
        "\t\tSize:         lo.ToPtr(\"\"),\n\t\tFamily:       lo.ToPtr(\"\"),\n" ++
        "\t\tResourceType: lo.ToPtr(\"\"),\n\t\tAPIVersions: &[]string\x7b\n\t\t\x7d,\n" ++
        "\t\tCosts: &[]compute.ResourceSkuCosts\x7b\t\t\x7d,\n" ++
        "\t\tRestrictions: &[]compute.ResourceSkuRestrictions\x7b\n\t\t\x7d,\n" ++
        "\t\tCapabilities: &[]compute.ResourceSkuCapabilities\x7b\n\t\t\x7d,\n" ++
        "\t\tLocations: &[]string\x7b\"eastus\"\x7d,\n" ++
        "\t\tLocationInfo: &[]compute.ResourceSkuLocationInfo\x7b\t\t\t\x7d,\n" ++
        "\t\x7d,\n" ++ "\x7d,\n") ∧
    renderFile (fun _ => true) "// license" "2024-01-01T00:00:00Z" "eastus"
        [sampleEntriesSku 0, sampleEntriesSku 1] =
      .ok (renderPreamble "// license" "2024-01-01T00:00:00Z" ++
        "ResourceSkus[\"eastus\"] = []compute.ResourceSku\x7b\n" ++
        textOf (renderSku (fun _ => true) "eastus" (sampleEntriesSku 0)) ++
        textOf (renderSku (fun _ => true) "eastus" (sampleEntriesSku 1)) ++
        "\x7d\n" ++ "\x7d\n") ∧
    braceBalance ("ResourceSkus[\"eastus\"] = []compute.ResourceSku\x7b\n" ++
      textOf (renderSku (fun _ => true) "eastus" (sampleEntriesSku 0))).data = 0 ∧
    braceBalance (textOf (renderSku (fun _ => true) "eastus" (sampleEntriesSku 0))).data = -1 ∧
    braceBalance (textOf (renderSku (fun _ => true) "eastus" (sampleEntriesSku 1))).data = 0 ∧
    braceBalance (textOf (renderSku (fun _ => true) "eastus" (sampleEntriesSku 2))).data = 1 ∧
    renderCost (fun _ => true)
        { MeterID := some "m)),\nResourceSkus[\"eastus\"] = nil\n//", Quantity := some 65,
          ExtendedUnit := none } =
      "\t\t\t\x7bMeterID: lo.ToPtr(%!f(string=m)),\nResourceSkus[\"eastus\"] = nil\n//)), " ++
        "Quantity: lo.ToPtr('A'), ExtendedUnit: lo.ToPtr(\"\")\x7d," := by
  refine ⟨ok_of_textOf _ _ (by decide!) (by decide!), ok_of_textOf _ _ (by decide!) (by decide!),
    by decide!, by decide!, by decide!, by decide!, by decide!⟩

/-- The cost entries are written with `%f` for the meter id and `%q` for the
quantity: quantities that are no valid rune are all written as U+FFFD, so two
different quantities give the same text. -/
theorem cost_quantities_collide :
    sampleCost 55296 ≠ sampleCost 55297 ∧
    renderCost (fun _ => true) (sampleCost 55296) = renderCost (fun _ => true) (sampleCost 55297) ∧
    renderCost (fun _ => true) (sampleCost 65) =
      "\t\t\t\x7bMeterID: lo.ToPtr(%!f(string=meter)), Quantity: lo.ToPtr('A'), ExtendedUnit: lo.ToPtr(\"unit\")\x7d," := by
  refine ⟨by decide, by decide, by decide⟩

end SkuGen
